import Mathlib

/-!
Formal model of the CCBHC quality-measure pipeline (DEP-REM, I-SERV, ASC,
CDF-CH, SDOH and the shared Submeasure protocol).

Each measure module is shallowly embedded: a pandas DataFrame becomes a
Lean `List` of records, a pandas filter becomes `List.filter`, a stable
`sort_values` becomes `List.insertionSort` (which is stable), and
`drop_duplicates(keep=first)` becomes `dedupKeepFirstBy`.  Timestamps are
modelled as a civil-calendar day number (rata die, 1970-01-01 = 0)
together with a time-of-day in seconds, so that `.dt.date` comparisons,
`DateOffset(months=n)` (calendar month addition with day-of-month
clamping), `relativedelta(days=n)` and pandas business-day arithmetic all
have exact counterparts.
-/

namespace Cal

/-- Gregorian leap-year test. -/
def isLeap (y : Int) : Bool :=
  (y % 4 == 0 && y % 100 != 0) || (y % 400 == 0)

/-- Number of days in a civil month. -/
def daysInMonth (y m : Int) : Int :=
  if m = 2 then (if isLeap y then 29 else 28)
  else if m = 4 ∨ m = 6 ∨ m = 9 ∨ m = 11 then 30
  else 31

/-- Rata-die day number of a civil date, 1970-01-01 being day 0
(standard days-from-civil algorithm). -/
def daysFromCivil (y m d : Int) : Int :=
  let y2 := if m ≤ 2 then y - 1 else y
  let era := Int.fdiv y2 400
  let yoe := y2 - era * 400
  let mp := Int.emod (m + 9) 12
  let doy := Int.fdiv (153 * mp + 2) 5 + d - 1
  let doe := yoe * 365 + Int.fdiv yoe 4 - Int.fdiv yoe 100 + doy
  era * 146097 + doe - 719468

/-- Civil date (year, month, day) of a rata-die day number
(standard civil-from-days algorithm). -/
def civilFromDays (z : Int) : Int × Int × Int :=
  let z2 := z + 719468
  let era := Int.fdiv z2 146097
  let doe := z2 - era * 146097
  let yoe := Int.fdiv (doe - Int.fdiv doe 1460 + Int.fdiv doe 36524 - Int.fdiv doe 146096) 365
  let y := yoe + era * 400
  let doy := doe - (365 * yoe + Int.fdiv yoe 4 - Int.fdiv yoe 100)
  let mp := Int.fdiv (5 * doy + 2) 153
  let d := doy - Int.fdiv (153 * mp + 2) 5 + 1
  let m := mp + (if mp < 10 then 3 else -9)
  (if m ≤ 2 then y + 1 else y, m, d)

/-- Calendar year of a day number (`Timestamp.year` in pandas). -/
def yearOf (z : Int) : Int := (civilFromDays z).1

/-- Calendar month of a day number (`Timestamp.month` in pandas). -/
def monthOf (z : Int) : Int := (civilFromDays z).2.1

/-- Day of month of a day number. -/
def domOf (z : Int) : Int := (civilFromDays z).2.2

/-- Add `n` calendar months to a day number, clamping the day of month to
the target month length.  This is the semantics of both
`pd.DateOffset(months=n)` and `relativedelta(months=n)`. -/
def addMonths (z n : Int) : Int :=
  let y := yearOf z
  let m := monthOf z
  let d := domOf z
  let t := 12 * y + (m - 1) + n
  let y2 := Int.fdiv t 12
  let m2 := Int.emod t 12 + 1
  let d2 := min d (daysInMonth y2 m2)
  daysFromCivil y2 m2 d2

/-- Weekday of a day number, Monday = 0 .. Sunday = 6
(1970-01-01, day 0, was a Thursday). -/
def weekday (z : Int) : Int := Int.emod (z + 3) 7

/-- Monday through Friday count as business days. -/
def isBusinessDay (z : Int) : Bool := weekday z < 5

/-- First business day strictly after `z`. -/
def nextBusinessDay (z : Int) : Int :=
  let w := weekday z
  if w = 4 then z + 3 else if w = 5 then z + 2 else z + 1

/-- The `n`-th business day strictly after `z`: the effect of adding
`pd.tseries.offsets.BDay(n)` to a timestamp on day `z`. -/
def addBusinessDays (z : Int) : Nat → Int
  | 0 => z
  | n + 1 => addBusinessDays (nextBusinessDay z) n

/-- Number of business days among `a, a+1, ..., a+n-1`. -/
def bdCount (a : Int) : Nat → Nat
  | 0 => 0
  | n + 1 => (if isBusinessDay a then 1 else 0) + bdCount (a + 1) n

end Cal

/-- A point in time: rata-die day number plus time of day in seconds.
Models a pandas `Timestamp`; `.date()` is the `day` component. -/
structure Ts where
  day : Int
  tod : Int
deriving DecidableEq, Repr

/-- Timestamp order (lexicographic on day, then time of day). -/
def Ts.le (a b : Ts) : Prop :=
  a.day < b.day ∨ (a.day = b.day ∧ a.tod ≤ b.tod)

instance (a b : Ts) : Decidable (Ts.le a b) :=
  inferInstanceAs (Decidable (_ ∨ _))

/-- Number of whole days from `b` to `a` (floor), the value of
`(a - b).dt.days` on pandas timestamps. -/
def Ts.dayssince (a b : Ts) : Int :=
  Int.fdiv ((a.day * 86400 + a.tod) - (b.day * 86400 + b.tod)) 86400

/-- Concatenation of the images of a list under a list-valued function
(used to model per-group processing followed by `pd.concat`). -/
def cmap (f : α → List β) : List α → List β
  | [] => []
  | x :: xs => f x ++ cmap f xs

/-- Helper for `dedupKeepFirstBy`: drops every row whose key was already
seen, scanning left to right. -/
def dedupSeen {κ : Type} (k : α → κ) [DecidableEq κ] (seen : List κ) : List α → List α
  | [] => []
  | x :: xs => if k x ∈ seen then dedupSeen k seen xs else x :: dedupSeen k (k x :: seen) xs

/-- Model of `DataFrame.drop_duplicates(subset=key, keep=first)`:
keeps the first row carrying each key, in order. -/
def dedupKeepFirstBy {κ : Type} (k : α → κ) [DecidableEq κ] (l : List α) : List α :=
  dedupSeen k [] l

/-- Model of `DataFrame.drop_duplicates(subset=key, keep=last)`:
keeps the last row carrying each key, in order. -/
def dedupKeepLastBy {κ : Type} (k : α → κ) [DecidableEq κ] (l : List α) : List α :=
  (dedupKeepFirstBy k l.reverse).reverse

/-- Association lookup: first value stored under a key, if any
(models joining against a table whose key column is unique). -/
def alookup {κ β : Type} [DecidableEq κ] (c : κ) : List (κ × β) → Option β
  | [] => none
  | (k, v) :: xs => if c = k then some v else alookup c xs

/-!
Model of I-SERV sub-measure 1 (`I_SERV.py`, class `_Sub_1`): average time
until provision of initial evaluation.  The SQL extraction steps are
modelled by taking the query results (calls, initial evaluations, prior
billable visits) as input lists.  The string id
`patient_measurement_year_id = str(pid) + "-" + str(year)` is modelled as
the pair `(pid, year)`, which the string construction determines
injectively for numeric patient ids and years.
-/

namespace Iserv1

/-- A row of the calls query (`__get_call_dates`). -/
structure CallRow where
  patientID : Nat
  callID : Nat
  startDate : Ts
  dob : Ts
deriving DecidableEq, Repr

/-- A row of the initial-evaluations query (`__get_initial_evals`). -/
structure EvalRow where
  patientId : Nat
  visitDateTime : Ts
  evalEncounterId : Nat
deriving DecidableEq, Repr

/-- A populace row after `__match_evals_to_calls`. -/
structure PopRow where
  patientID : Nat
  callID : Nat
  startDate : Ts
  dob : Ts
  evalDate : Option Ts
  evalEncounterId : Option Nat
deriving DecidableEq, Repr

/-- Model of `__get_next_date`: the first row (in table order) of the
evaluations of one patient whose date is on or after the call. -/
def getNextDate (call : Ts) (evals : List EvalRow) : Option (Ts × Nat) :=
  match evals.filter (fun e => decide (Ts.le call e.visitDateTime)) with
  | [] => none
  | e :: _ => some (e.visitDateTime, e.evalEncounterId)

/-- Model of `__match_evals_to_calls`: keep evaluations of known callers,
match each call to its next evaluation, de-duplicate on
`(PatientID, eval_encounter_id)` keeping the first row, and append the
calls that never got an evaluation. -/
def matchEvalsToCalls (calls : List CallRow) (evals : List EvalRow) : List PopRow :=
  let callIds := calls.map (·.patientID)
  let evals2 := evals.filter (fun e => callIds.contains e.patientId)
  let evalIds := evals2.map (·.patientId)
  let hasEval := calls.filter (fun c => evalIds.contains c.patientID)
  let hasNoEval := calls.filter (fun c => !(evalIds.contains c.patientID))
  let hasEval2 := hasEval.map (fun c =>
    let nd := getNextDate c.startDate (evals2.filter (fun e => e.patientId == c.patientID))
    PopRow.mk c.patientID c.callID c.startDate c.dob (nd.map Prod.fst) (nd.map Prod.snd))
  let hasEval3 := dedupKeepFirstBy (fun r => (r.patientID, r.evalEncounterId)) hasEval2
  hasEval3 ++ hasNoEval.map (fun c => PopRow.mk c.patientID c.callID c.startDate c.dob none none)

/-- A populace row after `_get_populace` (measurement year and composite
id added). -/
structure Row extends PopRow where
  measurementYear : Int
  pmy : Nat × Int
deriving DecidableEq, Repr

/-- Model of `__calculate_measurement_year` and
`__create_patient_measurement_year_id`. -/
def getPopulace (calls : List CallRow) (evals : List EvalRow) : List Row :=
  (matchEvalsToCalls calls evals).map (fun r =>
    Row.mk r (Cal.yearOf r.startDate.day) (r.patientID, Cal.yearOf r.startDate.day))

/-- A row of the prior-billable-visits query
(`__get_prior_6_month_visits`): visits with month > 6. -/
structure PriorVisit where
  patientId : Nat
  priorYear : Int
deriving DecidableEq, Repr

/-- Model of `__prior_visit_exclusions`: drop measurement-year ids of
patients billed after June of the previous year. -/
def priorVisitExclusions (pop : List Row) (priorVisits : List PriorVisit) : List Row :=
  let exclusionIds := dedupKeepFirstBy id
    (priorVisits.map (fun v => (v.patientId, v.priorYear + 1)))
  pop.filter (fun r => !(exclusionIds.contains r.pmy))

/-- Model of `__december_exclusions`: drop calls made in December. -/
def decemberExclusions (pop : List Row) : List Row :=
  pop.filter (fun r => decide (Cal.monthOf r.startDate.day ≠ 12))

/-- Model of `__calculate_age`: calendar-year difference between the
measurement year and the year of birth (NOT a day-based age). -/
def calculateAge (r : Row) : Int :=
  r.measurementYear - Cal.yearOf r.dob.day

/-- Model of `__remove_age`: keep clients aged 12 or older. -/
def removeAge (pop : List Row) : List Row :=
  pop.filter (fun r => decide (12 ≤ calculateAge r))

/-- Model of `_remove_exclusions`. -/
def removeExclusions (pop : List Row) (priorVisits : List PriorVisit) : List Row :=
  removeAge (decemberExclusions (priorVisitExclusions pop priorVisits))

/-- Model of `get_denominator`. -/
def getDenominator (calls : List CallRow) (evals : List EvalRow)
    (priorVisits : List PriorVisit) : List Row :=
  removeExclusions (getPopulace calls evals) priorVisits

/-- Model of `_apply_time_constraint`: an evaluation dated outside the
measurement year has 31 business days ADDED TO ITS OWN DATE (the
docstring instead promises a date 31 days after first contact); a
missing evaluation stays missing (`NaT + BDay(31)` is `NaT`). -/
def applyTimeConstraint (pop : List Row) : List Row :=
  pop.map (fun r =>
    { r with evalDate :=
        match r.evalDate with
        | none => none
        | some d =>
          if Cal.yearOf d.day = r.measurementYear then some d
          else some (Ts.mk (Cal.addBusinessDays d.day 31) d.tod) })

/-- Length of `pd.bdate_range(a, b)`: business-day-frequency timestamps
starting from `a` (keeping its time of day) that do not exceed `b`.
The last candidate day is `b.day` when the time of day of `a` does not
exceed that of `b`, and `b.day - 1` otherwise. -/
def bdateRangeLen (a b : Ts) : Nat :=
  let last := if a.tod ≤ b.tod then b.day else b.day - 1
  if last < a.day then 0 else Cal.bdCount a.day (last - a.day + 1).toNat

/-- Model of `__calculate_days_from_call`: `len(pd.bdate_range(call,
eval)) - 1`. -/
def calculateDaysFromCall (call evalDate : Ts) : Int :=
  (bdateRangeLen call evalDate : Int) - 1

/-- A populace row after `_find_performance_met`. -/
structure NumRow extends Row where
  businessDaysFromCallToEval : Int
deriving DecidableEq, Repr

/-- Model of `__filter_calls_without_evals` followed by the numerator
computation in `_find_performance_met`: rows without an evaluation are
moved out (they become the reportable exclusions), every remaining row
gets the business-day count from call to evaluation. -/
def findPerformanceMet (pop : List Row) : List NumRow :=
  (pop.filter (fun r => r.evalDate.isSome)).map (fun r =>
    NumRow.mk r (match r.evalDate with
      | some d => calculateDaysFromCall r.startDate d
      | none => 0))

/-- Model of `get_numerator`. -/
def getNumerator (pop : List Row) : List NumRow :=
  findPerformanceMet (applyTimeConstraint pop)

/-- The columns kept by `__trim_unnecessary_populace_data`. -/
structure FinalRow where
  patientID : Nat
  pmy : Nat × Int
  callID : Nat
  evalEncounterId : Option Nat
  businessDaysFromCallToEval : Int
deriving DecidableEq, Repr

/-- Model of `__trim_unnecessary_populace_data`: project to the final
column set and drop fully duplicated rows (`drop_duplicates()` with no
subset). -/
def trimUnnecessaryPopulaceData (pop : List NumRow) : List FinalRow :=
  dedupKeepFirstBy id (pop.map (fun r =>
    FinalRow.mk r.patientID r.pmy r.callID r.evalEncounterId r.businessDaysFromCallToEval))

/-- The cohort table returned by `return_final_data`, as a function of
the three query results. -/
def sub1FinalPopulace (calls : List CallRow) (evals : List EvalRow)
    (priorVisits : List PriorVisit) : List FinalRow :=
  trimUnnecessaryPopulaceData (getNumerator (getDenominator calls evals priorVisits))

/-- The columns kept by `__trim_unnecessary_stratify_data`. -/
structure StratFinalRow where
  pmy : Nat × Int
  age : String
  ethnicity : String
  race : String
  medicaid : String
deriving DecidableEq, Repr

/-- Model of `__trim_unnecessary_stratify_data`: project and
de-duplicate on `patient_measurement_year_id`. -/
def trimUnnecessaryStratifyData (xs : List StratFinalRow) : List StratFinalRow :=
  dedupKeepFirstBy (fun r => r.pmy) xs

end Iserv1

/-- Shorthand for building a timestamp at midnight of a civil date. -/
def mkDay (y m d : Int) : Ts := Ts.mk (Cal.daysFromCivil y m d) 0

/-- Input for the I-SERV late-evaluation check: one new client whose
first contact is Monday 2024-11-04 and whose initial evaluation is
Monday 2025-01-06, after the end of the 2024 measurement year. -/
def iservLateCalls : List Iserv1.CallRow :=
  [Iserv1.CallRow.mk 1 10 (mkDay 2024 11 4) (mkDay 1990 1 1)]

/-- The single late initial evaluation for that client. -/
def iservLateEvals : List Iserv1.EvalRow :=
  [Iserv1.EvalRow.mk 1 (mkDay 2025 1 6) 55]

/-- Input for the duplicate-key check: one patient with two first
contacts (different calls) in measurement year 2024, each followed by
its own initial evaluation. -/
def iservTwoCalls : List Iserv1.CallRow :=
  [Iserv1.CallRow.mk 1 10 (mkDay 2024 2 5) (mkDay 1990 1 1),
   Iserv1.CallRow.mk 1 11 (mkDay 2024 6 3) (mkDay 1990 1 1)]

/-- The two evaluations matched by the two calls above. -/
def iservTwoEvals : List Iserv1.EvalRow :=
  [Iserv1.EvalRow.mk 1 (mkDay 2024 2 6) 50,
   Iserv1.EvalRow.mk 1 (mkDay 2024 6 4) 51]

/-!
Model of the Submeasure protocol (`Measurement.py`) as call traces.  A
step is one of the overridable pipeline methods; each sub-measure's
entry points are modelled as the sequence of step invocations they
perform, composed exactly as the Python call graph composes them.
-/

/-- The overridable pipeline steps of `Submeasure`, plus the
`_set_stratify` entry that I-SERV sub-2 uses instead of
`stratify_data`. -/
inductive Step where
  | getPopulace
  | removeExclusions
  | applyTimeConstraint
  | findPerformanceMet
  | stratifyData
  | setStratify
  | returnFinalData
deriving DecidableEq, Repr

namespace Protocol

/-- Trace of `Submeasure.get_denominator`: `_get_populace` then
`_remove_exclusions`. -/
def baseGetDenominator : List Step := [Step.getPopulace, Step.removeExclusions]

/-- Trace of `Submeasure.get_numerator`: `_apply_time_constraint` then
`_find_performance_met`. -/
def baseGetNumerator : List Step := [Step.applyTimeConstraint, Step.findPerformanceMet]

/-- Trace of `Submeasure.collect_measurement_data` given the possibly
overridden denominator and numerator traces: denominator, numerator,
`stratify_data`, `return_final_data`. -/
def collectMeasurementData (den num : List Step) : List Step :=
  den ++ num ++ [Step.stratifyData, Step.returnFinalData]

/-- The protocol the spec asserts for every sub-measure. -/
def standardTrace : List Step :=
  collectMeasurementData baseGetDenominator baseGetNumerator

/-- DEP-REM sub-1 runs through `collect_measurement_data` with the base
step order (its overrides add logging only). -/
def depRemSub1Trace : List Step :=
  collectMeasurementData baseGetDenominator baseGetNumerator

/-- ASC sub-1 runs through `collect_measurement_data` with the base
step order. -/
def ascSub1Trace : List Step :=
  collectMeasurementData baseGetDenominator baseGetNumerator

/-- ASC sub-2 `get_denominator` calls `super().get_denominator()` AND
then `self._get_populace()` again (ASC.py lines 421-433). -/
def ascSub2GetDenominator : List Step :=
  baseGetDenominator ++ [Step.getPopulace]

/-- ASC sub-2 runs through `collect_measurement_data` with its
overridden denominator trace. -/
def ascSub2Trace : List Step :=
  collectMeasurementData ascSub2GetDenominator baseGetNumerator

/-- CDF-CH sub-1 runs through `collect_measurement_data` with the base
step order. -/
def cdfChSub1Trace : List Step :=
  collectMeasurementData baseGetDenominator baseGetNumerator

/-- SDOH `get_numerator` is overridden to call
`_find_performance_met()` BEFORE `_apply_time_constraint()`
(SDOH.py lines 133-143). -/
def sdohGetNumerator : List Step := [Step.findPerformanceMet, Step.applyTimeConstraint]

/-- SDOH sub-1 runs through `collect_measurement_data` with its
reversed numerator trace. -/
def sdohSub1Trace : List Step :=
  collectMeasurementData baseGetDenominator sdohGetNumerator

/-- I-SERV sub-1 runs through `collect_measurement_data` with the base
step order. -/
def iservSub1Trace : List Step :=
  collectMeasurementData baseGetDenominator baseGetNumerator

/-- I-SERV sub-2 is not driven through `collect_measurement_data`:
`I_Serv.get_submeasure_data` calls `get_denominator`, `get_numerator`,
`_set_stratify` (instead of `stratify_data`) and `return_final_data`
(I_SERV.py lines 696-699). -/
def iservSub2Trace : List Step :=
  baseGetDenominator ++ baseGetNumerator ++ [Step.setStratify, Step.returnFinalData]

end Protocol

/-!
Model of ASC sub-measure 1 (`ASC.py`, class `_Sub_1`): clients 18+
screened for unhealthy alcohol use.  The encounter query computes `Age`
in SQL as `DATEDIFF(year, DOB, VisitDateTime)` (a calendar-year
difference), so `age` is an input column here.
-/

namespace Asc1

/-- A row of the all-encounters query (`__get_all_encounters`). -/
structure Enc where
  patientId : Nat
  age : Int
  encounterID : Nat
  encounterDate : Ts
  measurementYear : Int
deriving DecidableEq, Repr

/-- An encounter with its `patient_measurement_year_id` (modelled as the
pair `(PatientId, measurement_year)`). -/
structure Row extends Enc where
  pmy : Nat × Int
deriving DecidableEq, Repr

/-- Model of `__create_patient_measurement_year_id`. -/
def createPatientMeasurementYearId (encs : List Enc) : List Row :=
  encs.map (fun e => Row.mk e (e.patientId, e.measurementYear))

/-- Model of `__number_of_visits_filter`.  The source computes
`multiple_visits` as
`(populace.groupby(pmy)[PatientId].size() >= 2).reset_index()[pmy].to_list()`:
`reset_index()` turns the boolean group-size Series into a frame and the
`[pmy]` column selection then takes the KEY column, discarding the
`>= 2` mask, so the resulting list holds every group key present in the
populace and the subsequent `isin` filter keeps every row. -/
def numberOfVisitsFilter (pop : List Row) : List Row :=
  let multipleVisits := dedupKeepFirstBy id (pop.map (fun r => r.pmy))
  pop.filter (fun r => decide (r.pmy ∈ multipleVisits))

/-- Model of `__get_two_or_more_visits`. -/
def getTwoOrMoreVisits (encs : List Enc) : List Row :=
  numberOfVisitsFilter (createPatientMeasurementYearId encs)

/-- Model of `_get_populace`: after the two-or-more-visits stage, the
preventive visits are added with `pd.concat(self.__populace__,
preventive_visits)`, whose first positional argument must be an
iterable of frames — passing the populace frame itself raises
`TypeError`.  With no preventive visits the method returns early, so
the populace survives only in that case. -/
def getPopulace (encs preventive : List Enc) : Option (List Row) :=
  if preventive.isEmpty then some (getTwoOrMoreVisits encs) else none

/-- Model of `__remove_age_exclusions`: keep clients aged 18+. -/
def removeAgeExclusions (pop : List Row) : List Row :=
  pop.filter (fun r => decide (18 ≤ r.age))

/-- A row of the dementia-diagnoses query (`__get_dementia_exclusions`). -/
structure DementiaRow where
  patientId : Nat
  exclusionYear : Int
deriving DecidableEq, Repr

/-- Model of `__compare_dementia_year_to_populace`: keys of denominator
members having a dementia diagnosis dated in or before their
measurement year (rows of the left join without a dementia match
compare as false and drop out). -/
def compareDementiaYearToPopulace (pop : List Row) (dementia : List DementiaRow) :
    List (Nat × Int) :=
  let uniqueDenominators := dedupKeepFirstBy (fun r => r.pmy) pop
  let merged := cmap (fun r =>
    (dementia.filter (fun d => d.patientId == r.patientId)).map (fun d => (r, d)))
    uniqueDenominators
  dedupKeepFirstBy id
    ((merged.filter (fun p => decide (p.2.exclusionYear ≤ p.1.measurementYear))).map
      (fun p => p.1.pmy))

/-- Model of `__remove_dementia_exclusions` and
`__filter_dementia_exclusions`. -/
def removeDementiaExclusions (pop : List Row) (dementia : List DementiaRow) : List Row :=
  let exclusionIds := compareDementiaYearToPopulace pop dementia
  pop.filter (fun r => !(decide (r.pmy ∈ exclusionIds)))

/-- Model of `get_denominator` (`_get_populace` then
`_remove_exclusions`). -/
def getDenominator (encs preventive : List Enc) (dementia : List DementiaRow) :
    Option (List Row) :=
  (getPopulace encs preventive).map
    (fun pop => removeDementiaExclusions (removeAgeExclusions pop) dementia)

/-- The columns kept by `__trim_unnecessary_populace_data`. -/
structure FinalRow where
  pmy : Nat × Int
  patientId : Nat
  encounterID : Nat
  screeningDate : Option Ts
  numerator : Bool
deriving DecidableEq, Repr

/-- Model of `__trim_unnecessary_populace_data`: the final projection
drops duplicates on `patient_measurement_year_id`. -/
def trimUnnecessaryPopulaceData (xs : List FinalRow) : List FinalRow :=
  dedupKeepFirstBy (fun r => r.pmy) xs

/-- The columns kept by `__trim_unnecessary_stratify_data`. -/
structure StratFinalRow where
  pmy : Nat × Int
  measurementYear : Int
  ethnicity : String
  race : String
  medicaid : String
deriving DecidableEq, Repr

/-- Model of `__trim_unnecessary_stratify_data`: the final projection
drops duplicates on `patient_measurement_year_id`. -/
def trimUnnecessaryStratifyData (xs : List StratFinalRow) : List StratFinalRow :=
  dedupKeepFirstBy (fun r => r.pmy) xs

end Asc1

/-- A single qualifying non-preventive visit of an adult patient in
2024: by the claim (and by the docstring of
`__number_of_visits_filter`) this patient must be excluded from the
denominator. -/
def ascSingleVisit : List Asc1.Enc :=
  [Asc1.Enc.mk 1 25 500 (mkDay 2024 3 5) 2024]

/-- Strict timestamp order. -/
def Ts.lt (a b : Ts) : Prop :=
  a.day < b.day ∨ (a.day = b.day ∧ a.tod < b.tod)

instance (a b : Ts) : Decidable (Ts.lt a b) :=
  inferInstanceAs (Decidable (_ ∨ _))

/-- Age in whole years as the measures compute it:
`(visit - dob).dt.days // 365.25`.  Because `365.25 = 1461/4` is exactly
representable as a double and the float quotient only lands on an
integer when the rational quotient does, the float floor agrees with the
rational floor, which is `(4 * days).fdiv 1461`. -/
def ageYears (visit dob : Ts) : Int :=
  Int.fdiv (4 * Ts.dayssince visit dob) 1461

/-!
Model of CDF-CH sub-measure 1 (`CDF_CH.py`, class `_Sub_1`): depression
screening of minors, with negative screenings passing automatically and
positive screenings requiring a later follow-up encounter.  Rows of the
populace and screening queries arrive as input lists.  pandas sorts the
string ids; the model sorts by the pair key instead, which can permute
rows ACROSS different ids but never within one id, and no modelled stage
depends on the relative order of different ids.
-/

namespace CdfCh

/-- A row of the populace query (`__initialize_populace`). -/
structure Enc where
  patientId : Nat
  encounterId : Nat
  visitDateTime : Ts
  dob : Ts
deriving DecidableEq, Repr

/-- A populace row with its `patient_measurement_year_id`
(`(PatientId, year(VisitDateTime))`). -/
structure Row extends Enc where
  pmy : Nat × Int
deriving DecidableEq, Repr

/-- Sort rank for `sort_values([pmy, VisitDateTime])`. -/
def populaceRank (r : Row) : Lex (Lex (Nat × Int) × Lex (Int × Int)) :=
  toLex (toLex r.pmy, toLex (r.visitDateTime.day, r.visitDateTime.tod))

/-- Model of `_get_populace`: attach the measurement-year id, sort by
id and visit date, and keep the first encounter per id. -/
def getPopulace (encs : List Enc) : List Row :=
  dedupKeepFirstBy (fun r => r.pmy)
    (List.insertionSort (fun a b => populaceRank a ≤ populaceRank b)
      (encs.map (fun e => Row.mk e (e.patientId, Cal.yearOf e.visitDateTime.day))))

/-- Model of `__calculate_age`: day-based age at the date of service. -/
def calculateAge (r : Row) : Int :=
  ageYears r.visitDateTime r.dob

/-- Model of `__filter_age`: keep clients aged 12 to 17 inclusive at the
date of service. -/
def filterAge (pop : List Row) : List Row :=
  pop.filter (fun r => decide (12 ≤ calculateAge r ∧ calculateAge r ≤ 17))

/-- A row of the depression or bipolar diagnosis queries. -/
structure ExclRow where
  patientId : Nat
  exclusionDate : Ts
deriving DecidableEq, Repr

/-- Sort rank for `sort_values([PatientId, exclusion_date])`. -/
def exclRank (e : ExclRow) : Lex (Nat × Lex (Int × Int)) :=
  toLex (e.patientId, toLex (e.exclusionDate.day, e.exclusionDate.tod))

/-- Model of `__filter_mental_exclsusion`: reduce the diagnoses to the
first one per patient, left-join them on `PatientId`, and keep rows
whose visit is not after the diagnosis date (rows without a diagnosis
compare as missing and are kept). -/
def filterMentalExclsusion (pop : List Row) (exclusions : List ExclRow) : List Row :=
  let ex := dedupKeepFirstBy (fun e => e.patientId)
    (List.insertionSort (fun a b => exclRank a ≤ exclRank b) exclusions)
  pop.filter (fun r =>
    match ex.find? (fun e => e.patientId == r.patientId) with
    | none => true
    | some e => decide (Ts.le r.visitDateTime e.exclusionDate))

/-- Model of `_remove_exclusions`: age band, then depression exclusions,
then bipolar exclusions. -/
def removeExclusions (pop : List Row) (depressions bipolars : List ExclRow) : List Row :=
  filterMentalExclsusion (filterMentalExclsusion (filterAge pop) depressions) bipolars

/-- A row of the screenings query (`__get_screenings`); `totalScore` is
`None` when `pd.to_numeric(..., errors=coerce)` failed on the stored
string. -/
structure Screening where
  patientId : Nat
  encounterID : Nat
  screeningDate : Ts
  totalScore : Option Int
deriving DecidableEq, Repr

/-- A prepared screening row (`__prep_screenings_for_merge`). -/
structure PrepScreening where
  screeningEncounterId : Nat
  screeningDate : Ts
  screeningScore : Option Int
  pmy : Nat × Int
deriving DecidableEq, Repr

/-- A screening with its id, before the column projection. -/
structure KeyedScreening extends Screening where
  pmy : Nat × Int
deriving DecidableEq, Repr

/-- Sort rank for `sort_values([pmy, screening_date])`. -/
def screeningRank (s : KeyedScreening) : Lex (Lex (Nat × Int) × Lex (Int × Int)) :=
  toLex (toLex s.pmy, toLex (s.screeningDate.day, s.screeningDate.tod))

/-- Model of `__prep_screenings_for_merge`: attach the measurement-year
id of the screening date, sort, drop fully duplicated rows keeping the
last, and project away `PatientId`. -/
def prepScreeningsForMerge (screenings : List Screening) : List PrepScreening :=
  let keyed := screenings.map (fun s =>
    KeyedScreening.mk s (s.patientId, Cal.yearOf s.screeningDate.day))
  let sorted := List.insertionSort (fun a b => screeningRank a ≤ screeningRank b) keyed
  (dedupKeepLastBy id sorted).map (fun s =>
    PrepScreening.mk s.encounterID s.screeningDate s.totalScore s.pmy)

/-- A populace row after the left merge with the prepared screenings. -/
structure MergedRow extends Row where
  screeningEncounterId : Option Nat
  screeningDate : Option Ts
  screeningScore : Option Int
deriving DecidableEq, Repr

/-- Model of `__add_screenings_to_populace`: left merge on
`patient_measurement_year_id`; unmatched rows keep missing screening
columns, matched rows are repeated once per matching screening. -/
def addScreeningsToPopulace (pop : List Row) (screenings : List Screening) :
    List MergedRow :=
  let prepped := prepScreeningsForMerge screenings
  cmap (fun r =>
    match prepped.filter (fun s => decide (s.pmy = r.pmy)) with
    | [] => [MergedRow.mk r none none none]
    | ms => ms.map (fun s =>
        MergedRow.mk r (some s.screeningEncounterId) (some s.screeningDate) s.screeningScore))
    pop

/-- Model of `__determine_screenings_results`: a screening is positive
when its score exceeds 9; a missing score (no screening merged, or a
non-numeric stored value) compares as not-greater and lands in the
negative branch. -/
def positiveScreening (r : MergedRow) : Bool :=
  match r.screeningScore with
  | some s => decide (9 < s)
  | none => false

/-- Maximum of a list of timestamps (`groupby(...).max()`). -/
def maxTs (l : List Ts) : Option Ts :=
  l.foldl (fun acc t =>
    match acc with
    | none => some t
    | some m => if Ts.le m t then some t else some m) none

/-- Model of `__find_follow_ups`: the most recent encounter date per
patient, computed over the merged populace. -/
def findFollowUps (merged : List MergedRow) (pid : Nat) : Option Ts :=
  maxTs ((merged.filter (fun r => r.patientId == pid)).map (fun r => r.visitDateTime))

/-- The follow-up criterion of `__set_positive_numerators`: the last
encounter exists and is strictly after the screening date. -/
def followUpMet (merged : List MergedRow) (r : MergedRow) : Bool :=
  match findFollowUps merged r.patientId, r.screeningDate with
  | some l, some d => decide (Ts.lt d l)
  | _, _ => false

/-- A populace row after `_find_performance_met`. -/
structure NumRow extends MergedRow where
  lastEncounter : Option Ts
  numerator : Bool
  numeratorDesc : Option String
deriving DecidableEq, Repr

/-- Model of `__set_negative_numerators`: every negative-screening row
passes with description `Negative screening`. -/
def setNegativeNumerators (rows : List MergedRow) : List NumRow :=
  rows.map (fun r => NumRow.mk r none true (some "Negative screening"))

/-- Model of `__set_positive_numerators`: positive rows whose last
encounter is strictly after the screening date pass and are labelled,
the others keep `numerator = False` and no description. -/
def setPositiveNumerators (merged : List MergedRow) (rows : List MergedRow) :
    List NumRow :=
  let withMet := rows.map (fun r => (r, followUpMet merged r))
  (withMet.filter (fun p => p.2)).map (fun p =>
    NumRow.mk p.1 (findFollowUps merged p.1.patientId) true
      (some "Positive screening with follow up")) ++
  (withMet.filter (fun p => !p.2)).map (fun p =>
    NumRow.mk p.1 (findFollowUps merged p.1.patientId) false none)

/-- Model of `_find_performance_met`: merge screenings, split on the
screening result, label both branches, and re-concatenate (positive
rows first, as in the source). -/
def findPerformanceMet (pop : List Row) (screenings : List Screening) : List NumRow :=
  let merged := addScreeningsToPopulace pop screenings
  setPositiveNumerators merged (merged.filter positiveScreening) ++
    setNegativeNumerators (merged.filter (fun r => !positiveScreening r))

/-- The columns kept by `__trim_unnecessary_populace_data`. -/
structure FinalRow where
  pmy : Nat × Int
  patientId : Nat
  encounterId : Nat
  screeningEncounterId : Option Nat
  lastEncounter : Option Ts
  numerator : Bool
  numeratorDesc : Option String
deriving DecidableEq, Repr

/-- Model of `__trim_unnecessary_populace_data`: project to the final
column set and drop duplicates on `patient_measurement_year_id`. -/
def trimUnnecessaryPopulaceData (pop : List NumRow) : List FinalRow :=
  dedupKeepFirstBy (fun r => r.pmy)
    (pop.map (fun r => FinalRow.mk r.pmy r.patientId r.encounterId
      r.screeningEncounterId r.lastEncounter r.numerator r.numeratorDesc))

/-- The cohort table of `return_final_data` as a function of the
denominator populace and the screenings query. -/
def finalPopulace (pop : List Row) (screenings : List Screening) : List FinalRow :=
  trimUnnecessaryPopulaceData (findPerformanceMet pop screenings)

end CdfCh

/-!
Model of the SDOH measure (`SDOH.py`, class `_Sub_1`), restricted to the
stages the claims touch: the day-based age filter of
`_remove_exclusions` and the final projections.
-/

namespace Sdoh

/-- A row of the populace query with its measurement-year id. -/
structure Row where
  patientId : Nat
  encounterId : Nat
  visitDateTime : Ts
  dob : Ts
  pmy : Nat × Int
deriving DecidableEq, Repr

/-- Model of `__calculate_age`: day-based age at the date of service. -/
def calculateAge (r : Row) : Int :=
  ageYears r.visitDateTime r.dob

/-- Model of `__filter_age`: keep clients aged 18 or older at the date
of service. -/
def filterAge (pop : List Row) : List Row :=
  pop.filter (fun r => decide (18 ≤ calculateAge r))

/-- The columns kept by `__trim_unnecessary_populace_data`. -/
structure FinalRow where
  pmy : Nat × Int
  patientId : Nat
  encounterId : Nat
  numerator : Bool
  screeningId : Option Nat
  screeningDate : Option Ts
deriving DecidableEq, Repr

/-- Model of `__trim_unnecessary_populace_data`: project and drop
duplicates on `patient_measurement_year_id`. -/
def trimUnnecessaryPopulaceData (xs : List FinalRow) : List FinalRow :=
  dedupKeepFirstBy (fun r => r.pmy) xs

/-- The columns kept by `__trim_unnecessary_stratify_data`. -/
structure StratFinalRow where
  pmy : Nat × Int
  measurementYear : Int
  ethnicity : String
  race : String
  medicaid : String
deriving DecidableEq, Repr

/-- Model of `__trim_unnecessary_stratify_data`: project and drop
duplicates on `patient_measurement_year_id`. -/
def trimUnnecessaryStratifyData (xs : List StratFinalRow) : List StratFinalRow :=
  dedupKeepFirstBy (fun r => r.pmy) xs

end Sdoh

/-- A CDF-CH denominator member (2024 encounter of patient 1) for the
witness instance. -/
def cdfNoScreenRow : CdfCh.Row :=
  CdfCh.Row.mk (CdfCh.Enc.mk 1 100 (mkDay 2024 3 5) (mkDay 2010 1 1)) (1, 2024)

/-- Substring test on character lists: some suffix-drop of the haystack
starts with the needle. -/
def listContainsSeq (hay needle : List Char) : Bool :=
  (List.range (hay.length + 1)).any
    (fun i => decide (List.take needle.length (List.drop i hay) = needle))

/-- Model of `Series.str.contains(sub)` on one cell. -/
def strContains (hay needle : String) : Bool :=
  listContainsSeq hay.toList needle.toList

/-- A row of the insurance query (`tblPatientPayers`): `Start` is the
`EffectiveDate`, `stop` the nullable `DisenrollmentDate` (`End`), and
`plan` the lower-cased payer plan name. -/
structure InsuranceSpan where
  patientId : Nat
  start : Ts
  stop : Option Ts
  plan : String
deriving DecidableEq, Repr

/-!
Model of DEP-REM (`DEP_REM.py`, class `_Sub_1`): depression remission
six months after the index event.
-/

namespace DepRem

/-- A row of the PHQ-9 populace query (`__initilize_populace`), with the
score already cast to an integer as the SQL does. -/
structure Visit where
  patientId : Nat
  dob : Ts
  encounterID : Nat
  date : Ts
  score : Int
deriving DecidableEq, Repr

/-- Sort rank for `sort_values([PatientId, Date])`. -/
def visitRank (v : Visit) : Lex (Nat × Lex (Int × Int)) :=
  toLex (v.patientId, toLex (v.date.day, v.date.tod))

/-- Model of `__initilize_populace`: the query result sorted by patient
and date (`read_sql(...).sort_values([PatientId, Date])`). -/
def initilizePopulace (rows : List Visit) : List Visit :=
  List.insertionSort (fun a b => visitRank a ≤ visitRank b) rows

/-- An index-visit row (`__get_index_visits`). -/
structure IndexVisit where
  patientId : Nat
  pmy : Nat × Int
  encounterID : Nat
  measurementYear : Int
  date : Ts
deriving DecidableEq, Repr

/-- Sort rank for `index_visits.sort_values(Date)`. -/
def dateRank (i : IndexVisit) : Lex (Int × Int) :=
  toLex (i.date.day, i.date.tod)

/-- Model of `__get_index_visits`: visits with score above 9, keyed by
`(PatientId, year(Date))`, sorted by date, first one kept per key. -/
def getIndexVisits (populace : List Visit) : List IndexVisit :=
  let indexVisits := (populace.filter (fun v => decide (9 < v.score))).map (fun v =>
    IndexVisit.mk v.patientId (v.patientId, Cal.yearOf v.date.day) v.encounterID
      (Cal.yearOf v.date.day) v.date)
  dedupKeepFirstBy (fun i => i.pmy)
    (List.insertionSort (fun a b => dateRank a ≤ dateRank b) indexVisits)

/-- Model of `__create_patient_measurement_year_id`: restrict the index
visits to the visit's patient, keep those whose DATE (day precision) is
on or before the visit's date, and take the last one (the most recent,
since the index visits are date-sorted); absent any such index the visit
gets no group. -/
def createPatientMeasurementYearId (v : Visit) (indexVisits : List IndexVisit) :
    Option ((Nat × Int) × Nat) :=
  let indGroup := indexVisits.filter (fun i => i.patientId == v.patientId)
  let cands := indGroup.filter (fun i => decide (i.date.day ≤ v.date.day))
  match cands.getLast? with
  | some i => some ((v.patientId, Cal.yearOf i.date.day), i.encounterID)
  | none => none

/-- A populace visit attributed to its index visit. -/
structure PVisit extends Visit where
  pmy : Nat × Int
  indexEncounterId : Nat
deriving DecidableEq, Repr

/-- Model of `__set_index_groups`: attribute every visit, dropping the
`No Group` rows. -/
def setIndexGroups (populace : List Visit) (indexVisits : List IndexVisit) :
    List PVisit :=
  populace.filterMap (fun v =>
    (createPatientMeasurementYearId v indexVisits).map (fun p => PVisit.mk v p.1 p.2))

/-- Model of `_get_populace`. -/
def getPopulace (rows : List Visit) : List PVisit :=
  let populace := initilizePopulace rows
  setIndexGroups populace (getIndexVisits populace)

/-- A row of the exclusion-diagnoses query (`__get_all_exclusions`);
the date is `CONVERT(DATE, ...)`, day precision. -/
structure ExclusionRow where
  patientId : Nat
  date : Int
deriving DecidableEq, Repr

/-- Model of `__determine_exclusion_date_range`: each index visit paired
with `index date + 6 months + 60 days` (day precision). -/
def determineExclusionDateRange (indexVisits : List IndexVisit) :
    List (IndexVisit × Int) :=
  indexVisits.map (fun i => (i, Cal.addMonths i.date.day 6 + 60))

/-- Model of `__compare_exclusions_with_range`: left-join exclusions to
the ranges on `PatientId` (unmatched rows compare as false and drop),
keep exclusions dated inside the range, and collect the distinct index
encounter ids. -/
def compareExclusionsWithRange (exclusions : List ExclusionRow)
    (ranges : List (IndexVisit × Int)) : List Nat :=
  let merged := cmap (fun e =>
    (ranges.filter (fun p => p.1.patientId == e.patientId)).map (fun p => (e, p)))
    exclusions
  dedupKeepFirstBy id
    ((merged.filter (fun q => decide (q.1.date ≤ q.2.2))).map
      (fun q => q.2.1.encounterID))

/-- Model of `__filter_out_exclusions`: drop every visit whose index
encounter is excluded. -/
def filterOutExclusions (pop : List PVisit) (exclusions : List Nat) : List PVisit :=
  pop.filter (fun r => !(decide (r.indexEncounterId ∈ exclusions)))

/-- Model of `get_denominator`: populace, then exclusions
(`__get_all_exclusions` ends in `drop_duplicates()`). -/
def getDenominator (rows : List Visit) (exclusionRows : List ExclusionRow) :
    List PVisit :=
  let populace := initilizePopulace rows
  let indexVisits := getIndexVisits populace
  let pop := setIndexGroups populace indexVisits
  let exclusions := dedupKeepFirstBy id exclusionRows
  filterOutExclusions pop
    (compareExclusionsWithRange exclusions (determineExclusionDateRange indexVisits))

/-- The group keys of `populace.groupby(patient_measurement_year_id)`
(pandas iterates them in sorted order; no modelled stage depends on the
relative order of different keys, so first-occurrence order is used). -/
def pmyKeys (pop : List PVisit) : List (Nat × Int) :=
  dedupKeepFirstBy id (pop.map (fun r => r.pmy))

/-- The rows of one group, in populace order. -/
def groupOf (pop : List PVisit) (k : Nat × Int) : List PVisit :=
  pop.filter (fun r => decide (r.pmy = k))

/-- Model of the loop body of `_apply_time_constraint`: the first row of
the group (`patient_data.iloc[0]`) is taken as the index visit, the
remission window is `its date + 6 months - 60 days` through
`its date + 6 months + 60 days` (timestamps), and the output is that
first row followed by the rows inside the window. -/
def applyTimeConstraintGroup (g : List PVisit) : List PVisit :=
  match g with
  | [] => []
  | ix :: _ =>
    let minRange := Ts.mk (Cal.addMonths ix.date.day 6 - 60) ix.date.tod
    let maxRange := Ts.mk (Cal.addMonths ix.date.day 6 + 60) ix.date.tod
    ix :: g.filter (fun v => decide (Ts.le minRange v.date ∧ Ts.le v.date maxRange))

/-- Model of `_apply_time_constraint`: apply the window group by group
and concatenate. -/
def applyTimeConstraint (pop : List PVisit) : List PVisit :=
  cmap (fun k => applyTimeConstraintGroup (groupOf pop k)) (pmyKeys pop)

/-- Model of `__check_numerator_condition`: the groups containing a
score below 5. -/
def checkNumeratorCondition (pop : List PVisit) : List (Nat × Int) :=
  (pmyKeys pop).filter (fun k => (groupOf pop k).any (fun v => decide (v.score < 5)))

/-- A populace visit with its numerator flag. -/
structure NVisit extends PVisit where
  numerator : Bool
deriving DecidableEq, Repr

/-- Model of `__set_numerator`. -/
def setNumerator (pop : List PVisit) (numeratorIds : List (Nat × Int)) : List NVisit :=
  pop.map (fun r => NVisit.mk r (decide (r.pmy ∈ numeratorIds)))

/-- Model of `get_numerator` (`_apply_time_constraint` then
`_find_performance_met`). -/
def getNumerator (pop : List PVisit) : List NVisit :=
  let pop2 := applyTimeConstraint pop
  setNumerator pop2 (checkNumeratorCondition pop2)

/-- The columns kept by `__trim_unnecessary_populace_data` (the casts of
`__fix_populace_data_types` do not change the modelled values). -/
structure FinalRow where
  patientId : Nat
  pmy : Nat × Int
  indexEncounterId : Nat
  numerator : Bool
deriving DecidableEq, Repr

/-- Model of `__trim_unnecessary_populace_data`: project to the final
column set and drop fully duplicated rows (`drop_duplicates()` with no
subset). -/
def trimUnnecessaryPopulaceData (pop : List NVisit) : List FinalRow :=
  dedupKeepFirstBy id (pop.map (fun r =>
    FinalRow.mk r.patientId r.pmy r.indexEncounterId r.numerator))

/-- The cohort table of `return_final_data` as a function of the two
query results. -/
def finalPopulace (rows : List Visit) (exclusionRows : List ExclusionRow) :
    List FinalRow :=
  trimUnnecessaryPopulaceData (getNumerator (getDenominator rows exclusionRows))

/-- A stratify row (`__initialize_stratify` column set). -/
structure StratRow where
  pmy : Nat × Int
  patientId : Nat
  dob : Ts
  indexEncounterId : Nat
  date : Ts
deriving DecidableEq, Repr

/-- Sort rank for `sort_values([index_encounter_id, Date])`. -/
def stratRank (r : StratRow) : Lex (Nat × Lex (Int × Int)) :=
  toLex (r.indexEncounterId, toLex (r.date.day, r.date.tod))

/-- Model of `__initialize_stratify`: project the populace, sort by
index encounter and date, and keep one row per index encounter. -/
def initializeStratify (pop : List NVisit) : List StratRow :=
  dedupKeepFirstBy (fun r => r.indexEncounterId)
    (List.insertionSort (fun a b => stratRank a ≤ stratRank b)
      (pop.map (fun r => StratRow.mk r.pmy r.patientId r.dob r.indexEncounterId r.date)))

/-- The day-based age at the index visit
(`(Date - DOB).apply(lambda val: val.days // 365.25)`). -/
def stratAge (r : StratRow) : Int :=
  ageYears r.date r.dob

/-- The age filter inside `__calculate_age`: clients younger than 12 are
removed from the stratification. -/
def ageFilter (xs : List StratRow) : List StratRow :=
  xs.filter (fun r => decide (12 ≤ stratAge r))

/-- A stratify row with its age band. -/
structure AgedRow extends StratRow where
  ageGroup : String
deriving DecidableEq, Repr

/-- Model of `__calculate_age`: filter to ages 12+, then band into
`18+` versus `12-18`. -/
def calculateAge (xs : List StratRow) : List AgedRow :=
  (ageFilter xs).map (fun r =>
    AgedRow.mk r (if 18 ≤ stratAge r then "18+" else "12-18"))

/-- A row of the ethnicity/race query (`__get_patient_data`). -/
structure PatientData where
  patientId : Nat
  ethnicity : Option String
  race : Option String
deriving DecidableEq, Repr

/-- A stratify row with demographic columns attached. -/
structure StratP extends AgedRow where
  ethnicity : Option String
  race : Option String
deriving DecidableEq, Repr

/-- Model of `__get_patient_data`: de-duplicate the demographics on
`PatientId` keeping the last row, then inner-merge them onto the
stratify table. -/
def getPatientData (strat : List AgedRow) (patientData : List PatientData) :
    List StratP :=
  let pdata := dedupKeepLastBy (fun p => p.patientId) patientData
  strat.filterMap (fun r =>
    (pdata.find? (fun p => p.patientId == r.patientId)).map
      (fun p => StratP.mk r p.ethnicity p.race))

/-- Model of `__find_plans_with_medicaid`. -/
def findPlansWithMedicaid (plan : String) : Bool :=
  strContains plan "medicaid"

/-- Model of `__replace_medicaid_values`. -/
def replaceMedicaidValues (b : Bool) : Int :=
  if b then 1 else 2

/-- The numeric encoding of one insurance span. -/
def medicaidEncoding (s : InsuranceSpan) : Int :=
  replaceMedicaidValues (findPlansWithMedicaid s.plan)

/-- Model of `__merge_mediciad_with_stratify`: inner merge of the spans
with the stratify `PatientId`/`Date` columns, one output row per
matching pair. -/
def mergeMediciadWithStratify (spans : List InsuranceSpan) (strat : List StratP) :
    List (InsuranceSpan × Ts) :=
  cmap (fun s =>
    (strat.filter (fun r => r.patientId == s.patientId)).map (fun r => (s, r.date)))
    spans

/-- Model of `__filter_insurance_dates`: a null `End` is replaced by the
current time, then the span must cover the visit date. -/
def filterInsuranceDates (merged : List (InsuranceSpan × Ts)) (now : Ts) :
    List (InsuranceSpan × Ts) :=
  merged.filter (fun p =>
    decide (Ts.le p.1.start p.2 ∧ Ts.le p.2 (p.1.stop.getD now)))

/-- Model of `__find_patients_with_only_medicaids`: merge the surviving
span rows back onto the stratify table on `PatientId` and `Date`, group
by `index_encounter_id`, and flag the groups whose encoded sum is
exactly 1.  (The `patient_measurement_year_id` recreated by
`__recreate_patient_measurement_year_id` is never consumed in DEP-REM:
the merge here is on patient and date and the grouping on the index
encounter, so it is not modelled.) -/
def findPatientsWithOnlyMedicaids (mdata : List (InsuranceSpan × Ts))
    (strat : List StratP) : List (Nat × Bool) :=
  let merged := cmap (fun p =>
    (strat.filter (fun r => r.patientId == p.1.patientId && r.date == p.2)).map
      (fun r => (r.indexEncounterId, medicaidEncoding p.1)))
    mdata
  let keys := dedupKeepFirstBy id (merged.map (fun q => q.1))
  keys.map (fun e =>
    (e, decide (((merged.filter (fun q => q.1 == e)).map (fun q => q.2)).sum = 1)))

/-- A stratify row with its Medicaid flag. -/
structure StratM extends StratP where
  medicaid : Bool
deriving DecidableEq, Repr

/-- Model of `__get_encounter_data`: compute the Medicaid-only flags and
inner-merge them onto the stratify table on `index_encounter_id`
(stratify rows with no surviving insurance row are dropped by this
merge). -/
def getEncounterData (strat : List StratP) (spans : List InsuranceSpan) (now : Ts) :
    List StratM :=
  let mdata := filterInsuranceDates (mergeMediciadWithStratify spans strat) now
  let results := findPatientsWithOnlyMedicaids mdata strat
  strat.filterMap (fun r =>
    (alookup r.indexEncounterId results).map (fun b => StratM.mk r b))

/-- A stratify row after `__fill_blank_stratify`. -/
structure FilledStrat where
  pmy : Nat × Int
  patientId : Nat
  dob : Ts
  indexEncounterId : Nat
  date : Ts
  ageGroup : String
  ethnicity : String
  race : String
  medicaid : Bool
deriving DecidableEq, Repr

/-- Model of `__fill_blank_stratify`: null demographics become
`Unknown` (the Medicaid column of surviving rows is already boolean). -/
def fillBlankStratify (xs : List StratM) : List FilledStrat :=
  xs.map (fun r => FilledStrat.mk r.pmy r.patientId r.dob r.indexEncounterId r.date
    r.ageGroup (r.ethnicity.getD "Unknown") (r.race.getD "Unknown") r.medicaid)

/-- Model of `stratify_data`. -/
def stratifyData (pop : List NVisit) (patientData : List PatientData)
    (spans : List InsuranceSpan) (now : Ts) : List FilledStrat :=
  fillBlankStratify
    (getEncounterData (getPatientData (calculateAge (initializeStratify pop)) patientData)
      spans now)

/-- The columns kept by `__trim_unnecessary_stratify_data` (no
de-duplication happens here). -/
structure StratFinalRow where
  pmy : Nat × Int
  ageGroup : String
  ethnicity : String
  race : String
  medicaid : Bool
deriving DecidableEq, Repr

/-- Model of `__trim_unnecessary_stratify_data`. -/
def trimUnnecessaryStratifyData (xs : List FilledStrat) : List StratFinalRow :=
  xs.map (fun r => StratFinalRow.mk r.pmy r.ageGroup r.ethnicity r.race r.medicaid)

/-- The stratify table of `return_final_data` as a function of the query
results. -/
def finalStratify (rows : List Visit) (exclusionRows : List ExclusionRow)
    (patientData : List PatientData) (spans : List InsuranceSpan) (now : Ts) :
    List StratFinalRow :=
  trimUnnecessaryStratifyData
    (stratifyData (getNumerator (getDenominator rows exclusionRows)) patientData spans now)

end DepRem

/-- Sort rank of an attributed visit (populace retains the original
patient/date sort through the attribution stage). -/
def depRemPVisitRank (r : DepRem.PVisit) : Lex (Nat × Lex (Int × Int)) :=
  DepRem.visitRank r.toVisit

/-- Modelled from the claim wording of C6: the remission window is
anchored at the date of the INDEX EVENT and the numerator requires some
encounter of the group inside that inclusive window to score below 5. -/
def depRemClaimRemissionMet (g : List DepRem.PVisit) (indexDate : Ts) : Bool :=
  g.any (fun v => decide (
    (Ts.le (Ts.mk (Cal.addMonths indexDate.day 6 - 60) indexDate.tod) v.date ∧
      Ts.le v.date (Ts.mk (Cal.addMonths indexDate.day 6 + 60) indexDate.tod)) ∧
    v.score < 5))

/-- Concrete DEP-REM input with two same-day encounters: a score-3 visit
at an earlier time of day than the score-15 index visit. -/
def depRemSameDayRows : List DepRem.Visit :=
  [DepRem.Visit.mk 1 (mkDay 1990 1 1) 21 (Ts.mk (Cal.daysFromCivil 2024 3 5) 800) 3,
   DepRem.Visit.mk 1 (mkDay 1990 1 1) 22 (Ts.mk (Cal.daysFromCivil 2024 3 5) 1000) 15]

/-- A concrete attributed DEP-REM visit used by the C5 witness: the
score-3 encounter of 2024-03-04, attributed to the score-12 index visit
(id 11) of 2024-02-05. -/
def depRemWitnessRows : List DepRem.Visit :=
  [DepRem.Visit.mk 1 (mkDay 1990 1 1) 11 (mkDay 2024 2 5) 12,
   DepRem.Visit.mk 1 (mkDay 1990 1 1) 12 (mkDay 2024 3 4) 3]

/-- An I-SERV populace row for a patient born 2012-07-01 whose first
contact is 2024-01-02: the year-difference age is 12 but the day-based
age at the contact is 11. -/
def iservYoungRow : Iserv1.Row :=
  Iserv1.Row.mk
    (Iserv1.PopRow.mk 1 10 (mkDay 2024 1 2) (mkDay 2012 7 1) none none)
    2024 (1, 2024)

/-- A CDF-CH populace row aged exactly 12 at the visit. -/
def cdfAge12Row : CdfCh.Row :=
  CdfCh.Row.mk (CdfCh.Enc.mk 1 100 (mkDay 2024 1 15) (mkDay 2012 1 15)) (1, 2024)

/-- A CDF-CH populace row one day short of 12 years at the visit. -/
def cdfAge11Row : CdfCh.Row :=
  CdfCh.Row.mk (CdfCh.Enc.mk 1 101 (mkDay 2024 1 15) (mkDay 2012 1 16)) (1, 2024)

/-- A concrete stratify row used to exercise the Medicaid flag. -/
def depRemC3Rec : DepRem.StratP :=
  { pmy := (1, 2024), patientId := 1, dob := mkDay 2000 1 1,
    indexEncounterId := 11, date := mkDay 2024 3 5, ageGroup := "18+",
    ethnicity := some "eth", race := some "race" }

/-- A one-row stratify table. -/
def depRemC3Strat : List DepRem.StratP := [depRemC3Rec]

/-- A single Medicaid insurance span covering the visit date. -/
def depRemC3Spans : List InsuranceSpan :=
  [⟨1, mkDay 2024 1 1, some (mkDay 2024 12 31), "medicaid"⟩]

namespace CdfCh

/-- A stratify row as built by `__initialize_stratify` (CDF-CH): the
populace projected to the measurement-year id, patient, encounter and the
screening/visit dates, de-duplicated on the measurement-year id. -/
structure CStratRow where
  pmy : Nat × Int
  patientId : Nat
  encounterId : Nat
  visitDate : Ts
  screeningDate : Option Ts
deriving DecidableEq, Repr

/-- Model of `__merge_mediciad_with_stratify` (CDF-CH): left merge of the
spans with the stratify patient and date columns on `PatientId`; a span
with no matching stratify row keeps one output row whose stratify side is
null. -/
def mergeMediciadWithStratify (spans : List InsuranceSpan)
    (strat : List CStratRow) : List (InsuranceSpan × Option CStratRow) :=
  cmap (fun s =>
    match strat.filter (fun r => r.patientId == s.patientId) with
    | [] => [(s, none)]
    | ms => ms.map (fun r => (s, some r))) spans

/-- Model of `__filter_insurance_dates` (CDF-CH): a null `End` becomes the
current time; the validity date is the screening date when present and the
visit date otherwise; a row whose stratify side is null has null comparison
dates, fails both validity checks and is removed.  (The source re-sorts the
surviving rows by patient and visit date; the per-key sums taken downstream
do not depend on that order.) -/
def filterInsuranceDates (rows : List (InsuranceSpan × Option CStratRow))
    (now : Ts) : List (InsuranceSpan × CStratRow) :=
  rows.filterMap (fun p =>
    match p.2 with
    | none => none
    | some r =>
      if Ts.le p.1.start (r.screeningDate.getD r.visitDate) ∧
          Ts.le (r.screeningDate.getD r.visitDate) (p.1.stop.getD now) then
        some (p.1, r)
      else none)

/-- Model of `__create_measurement_year_id` applied to the surviving
medicaid rows: the patient id paired with the visit year. -/
def recreateMeasurementYearId (p : InsuranceSpan × CStratRow) : Nat × Int :=
  (p.2.patientId, Cal.yearOf p.2.visitDate.day)

/-- Model of `__determine_medicaid_stratify` and
`__find_patients_with_only_medicaids` (CDF-CH): encode each surviving span
row (`medicaid` 1, other 2), group by `patient_measurement_year_id` and
flag the groups whose encoded sum is exactly 1.  The encoding is the same
`__find_plans_with_medicaid` / `__replace_medicaid_values` pair as DEP-REM.
(The left merge back onto the stratify table before grouping adds stratify
columns without changing the groups, because the key is the
measurement-year id itself.) -/
def findPatientsWithOnlyMedicaids (mdata : List (InsuranceSpan × CStratRow)) :
    List ((Nat × Int) × Bool) :=
  let rows := mdata.map (fun p =>
    (recreateMeasurementYearId p, DepRem.medicaidEncoding p.1))
  let keys := dedupKeepFirstBy id (rows.map (fun q => q.1))
  keys.map (fun k =>
    (k, decide (((rows.filter (fun q => q.1 == k)).map (fun q => q.2)).sum = 1)))

/-- Model of `__get_encounter_data` (CDF-CH): the per-key results are
merged back onto the stratify table with `how=left` on the
measurement-year id, and the missing Medicaid values are filled with
`False`. -/
def getEncounterData (strat : List CStratRow) (spans : List InsuranceSpan)
    (now : Ts) : List (CStratRow × Bool) :=
  let mdata := filterInsuranceDates (mergeMediciadWithStratify spans strat) now
  let results := findPatientsWithOnlyMedicaids mdata
  strat.map (fun r => (r, (alookup r.pmy results).getD false))

end CdfCh

/-- A CDF-CH stratify row for a patient with no insurance spans. -/
def cdfC4Row : CdfCh.CStratRow :=
  ⟨(1, 2024), 1, 5, mkDay 2024 3 5, none⟩

theorem Ts.le_refl (a : Ts) : Ts.le a a := Or.inr ⟨rfl, le_rfl⟩

theorem Ts.le_trans {a b c : Ts} (h1 : Ts.le a b) (h2 : Ts.le b c) : Ts.le a c := by
  simp only [Ts.le] at *
  omega

theorem Ts.le_total (a b : Ts) : Ts.le a b ∨ Ts.le b a := by
  simp only [Ts.le]
  omega

theorem mem_cmap {f : α → List β} {b : β} {l : List α} :
    b ∈ cmap f l ↔ ∃ a ∈ l, b ∈ f a := by
  induction l with
  | nil => simp [cmap]
  | cons x xs ih => simp [cmap, ih]

theorem dedupSeen_sublist {κ : Type} (k : α → κ) [DecidableEq κ] (seen : List κ) :
    ∀ l : List α, List.Sublist (dedupSeen k seen l) l
  | [] => List.Sublist.refl []
  | x :: xs => by
    rw [dedupSeen]
    by_cases h : k x ∈ seen
    · rw [if_pos h]
      exact (dedupSeen_sublist k seen xs).cons x
    · rw [if_neg h]
      exact (dedupSeen_sublist k (k x :: seen) xs).cons₂ x

theorem dedupKeepFirstBy_sublist {κ : Type} (k : α → κ) [DecidableEq κ]
    (l : List α) : List.Sublist (dedupKeepFirstBy k l) l :=
  dedupSeen_sublist k [] l

theorem mem_of_mem_dedupKeepFirstBy {κ : Type} {k : α → κ} [DecidableEq κ]
    {a : α} {l : List α} (h : a ∈ dedupKeepFirstBy k l) : a ∈ l :=
  (dedupKeepFirstBy_sublist k l).mem h

theorem key_notmem_seen_of_mem_dedupSeen {κ : Type} {k : α → κ} [DecidableEq κ] :
    ∀ {seen : List κ} {l : List α} {a : α}, a ∈ dedupSeen k seen l → k a ∉ seen := by
  intro seen l
  induction l generalizing seen with
  | nil => intro a ha; simp [dedupSeen] at ha
  | cons x xs ih =>
    intro a ha
    rw [dedupSeen] at ha
    by_cases h : k x ∈ seen
    · rw [if_pos h] at ha
      exact ih ha
    · rw [if_neg h] at ha
      rcases List.mem_cons.mp ha with rfl | ha
      · exact h
      · intro hc
        exact ih ha (List.mem_cons_of_mem _ hc)

theorem dedupSeen_keys_nodup {κ : Type} (k : α → κ) [DecidableEq κ] :
    ∀ (seen : List κ) (l : List α), ((dedupSeen k seen l).map k).Nodup := by
  intro seen l
  induction l generalizing seen with
  | nil => simp [dedupSeen]
  | cons x xs ih =>
    rw [dedupSeen]
    by_cases h : k x ∈ seen
    · rw [if_pos h]; exact ih seen
    · rw [if_neg h]
      simp only [List.map_cons, List.nodup_cons]
      refine ⟨?_, ih (k x :: seen)⟩
      intro hmem
      rcases List.mem_map.mp hmem with ⟨y, hy, hky⟩
      exact key_notmem_seen_of_mem_dedupSeen hy (hky ▸ List.mem_cons_self _ _)

theorem dedupKeepFirstBy_keys_nodup {κ : Type} (k : α → κ) [DecidableEq κ]
    (l : List α) : ((dedupKeepFirstBy k l).map k).Nodup :=
  dedupSeen_keys_nodup k [] l

theorem mem_keys_dedupSeen {κ : Type} {k : α → κ} [DecidableEq κ] :
    ∀ {seen : List κ} {l : List α} {c : κ},
      c ∈ (dedupSeen k seen l).map k ↔ c ∈ l.map k ∧ c ∉ seen := by
  intro seen l
  induction l generalizing seen with
  | nil => simp [dedupSeen]
  | cons x xs ih =>
    intro c
    rw [dedupSeen]
    by_cases h : k x ∈ seen
    · rw [if_pos h, ih]
      constructor
      · rintro ⟨hc, hs⟩
        exact ⟨by rw [List.map_cons]; exact List.mem_cons_of_mem _ hc, hs⟩
      · rintro ⟨hc, hs⟩
        rw [List.map_cons, List.mem_cons] at hc
        rcases hc with rfl | hc
        · exact absurd h hs
        · exact ⟨hc, hs⟩
    · rw [if_neg h]
      constructor
      · intro hmem
        rw [List.map_cons, List.mem_cons] at hmem
        rcases hmem with rfl | hmem
        · exact ⟨by rw [List.map_cons]; exact List.mem_cons_self _ _, h⟩
        · rcases ih.mp hmem with ⟨hc, hs⟩
          exact ⟨by rw [List.map_cons]; exact List.mem_cons_of_mem _ hc,
            fun hcs => hs (List.mem_cons_of_mem _ hcs)⟩
      · rintro ⟨hc, hs⟩
        rw [List.map_cons, List.mem_cons] at hc
        rw [List.map_cons, List.mem_cons]
        rcases hc with rfl | hc
        · exact Or.inl rfl
        · by_cases hcx : c = k x
          · exact Or.inl hcx
          · refine Or.inr (ih.mpr ⟨hc, fun hcs => ?_⟩)
            rcases List.mem_cons.mp hcs with h1 | h1
            · exact hcx h1
            · exact hs h1

theorem mem_keys_dedupKeepFirstBy {κ : Type} {k : α → κ} [DecidableEq κ]
    {l : List α} {c : κ} :
    c ∈ (dedupKeepFirstBy k l).map k ↔ c ∈ l.map k := by
  rw [dedupKeepFirstBy, mem_keys_dedupSeen]
  simp

theorem dedupSeen_min {κ β : Type} [LinearOrder β] {ρ : α → β}
    {k : α → κ} [DecidableEq κ] :
    ∀ {seen : List κ} {l : List α}, l.Pairwise (fun a b => ρ a ≤ ρ b) →
      ∀ a ∈ dedupSeen k seen l, ∀ b ∈ l, k b = k a → ρ a ≤ ρ b := by
  intro seen l
  induction l generalizing seen with
  | nil => intro _ a ha; simp [dedupSeen] at ha
  | cons x xs ih =>
    intro hp a ha b hb hkb
    rcases List.pairwise_cons.mp hp with ⟨hx, hxs⟩
    rw [dedupSeen] at ha
    by_cases h : k x ∈ seen
    · rw [if_pos h] at ha
      rcases List.mem_cons.mp hb with rfl | hb
      · exact absurd (hkb ▸ h) (key_notmem_seen_of_mem_dedupSeen ha)
      · exact ih hxs a ha b hb hkb
    · rw [if_neg h] at ha
      rcases List.mem_cons.mp ha with rfl | ha
      · rcases List.mem_cons.mp hb with rfl | hb
        · exact le_rfl
        · exact hx b hb
      · rcases List.mem_cons.mp hb with rfl | hb
        · exact absurd (hkb ▸ List.mem_cons_self (k b) seen)
            (key_notmem_seen_of_mem_dedupSeen ha)
        · exact ih hxs a ha b hb hkb

theorem dedupKeepFirstBy_min {κ β : Type} [LinearOrder β] {ρ : α → β}
    {k : α → κ} [DecidableEq κ] {l : List α}
    (hp : l.Pairwise (fun a b => ρ a ≤ ρ b)) :
    ∀ a ∈ dedupKeepFirstBy k l, ∀ b ∈ l, k b = k a → ρ a ≤ ρ b :=
  dedupSeen_min hp

theorem mem_dedupKeepFirstBy_id [DecidableEq α] {l : List α} {a : α} :
    a ∈ dedupKeepFirstBy id l ↔ a ∈ l := by
  have h := @mem_keys_dedupKeepFirstBy α α id _ l a
  simpa using h

theorem dedupKeepLastBy_keys_nodup {κ : Type} (k : α → κ) [DecidableEq κ]
    (l : List α) : ((dedupKeepLastBy k l).map k).Nodup := by
  rw [dedupKeepLastBy, List.map_reverse]
  exact List.nodup_reverse.mpr (dedupKeepFirstBy_keys_nodup k l.reverse)

theorem mem_of_mem_dedupKeepLastBy {κ : Type} {k : α → κ} [DecidableEq κ]
    {a : α} {l : List α} (h : a ∈ dedupKeepLastBy k l) : a ∈ l := by
  rw [dedupKeepLastBy, List.mem_reverse] at h
  exact List.mem_reverse.mp (mem_of_mem_dedupKeepFirstBy h)

theorem alookup_eq_none {κ β : Type} [DecidableEq κ] {c : κ} :
    ∀ {l : List (κ × β)}, (∀ p ∈ l, p.1 ≠ c) → alookup c l = none
  | [], _ => rfl
  | (k, v) :: xs, h => by
    have hk : c ≠ k := fun hc => h (k, v) (List.mem_cons_self _ _) (hc ▸ rfl)
    simp only [alookup, if_neg hk]
    exact alookup_eq_none (fun p hp => h p (List.mem_cons_of_mem _ hp))

set_option maxRecDepth 4000 in
/-- Claim C2, code evaluated at the failing input: the client calls on
Monday 2024-11-04 and is evaluated on Monday 2025-01-06 (45 business
days later, outside the 2024 measurement year).  The claim and the
docstring of `_apply_time_constraint` demand the fixed 31-business-day
penalty, but the code adds 31 business days to the evaluation date
itself, so the reported numerator is 45 + 31 = 76, not 31. -/
theorem c2_iserv_late_eval_not_clamped_to_31 :
    (Iserv1.sub1FinalPopulace iservLateCalls iservLateEvals []).map
        (fun r => r.businessDaysFromCallToEval) = [76] ∧
      Iserv1.calculateDaysFromCall (mkDay 2024 11 4) (mkDay 2025 1 6) = 45 ∧
      (76 : Int) ≠ 31 := by
  refine ⟨by decide, by decide, by decide⟩

set_option maxRecDepth 4000 in
/-- Claim C1, counterexample: with two qualifying first contacts of the
same patient in measurement year 2024, the final I-SERV sub-1 cohort
table returned by `return_final_data` carries TWO rows with the same
`patient_measurement_year_id`, so the key is not unique. -/
theorem c1_counterexample_iserv_cohort_duplicate_key :
    (Iserv1.sub1FinalPopulace iservTwoCalls iservTwoEvals []).countP
        (fun r => r.pmy == (1, 2024)) = 2 ∧
      2 ≠ 1 := by
  refine ⟨by decide, by decide⟩

/-- Claim C9, counterexample: ASC sub-2 invokes `_get_populace` twice
during `get_denominator` (once through `super().get_denominator()` and
once directly), not exactly once as the claim states. -/
theorem c9_counterexample_asc_sub2_get_populace_twice :
    (Protocol.ascSub2Trace.count Step.getPopulace = 2) ∧ 2 ≠ 1 := by
  refine ⟨by decide, by decide⟩

/-- Claim C9 as amended: every sub-measure follows the fixed protocol
denominator, numerator, stratify, return-final with `_get_populace`,
`_remove_exclusions` and `_apply_time_constraint`,
`_find_performance_met` in the stated order, EXCEPT that ASC sub-2 runs
`_get_populace` a second time at the end of `get_denominator`, SDOH runs
`_find_performance_met` before `_apply_time_constraint`, and I-SERV
sub-2 is driven without `stratify_data` (its stratification is copied
from sub-1 through `_set_stratify`). -/
theorem c9_amended_submeasure_step_traces :
    Protocol.depRemSub1Trace = Protocol.standardTrace ∧
    Protocol.ascSub1Trace = Protocol.standardTrace ∧
    Protocol.cdfChSub1Trace = Protocol.standardTrace ∧
    Protocol.iservSub1Trace = Protocol.standardTrace ∧
    Protocol.standardTrace = [Step.getPopulace, Step.removeExclusions,
      Step.applyTimeConstraint, Step.findPerformanceMet,
      Step.stratifyData, Step.returnFinalData] ∧
    Protocol.ascSub2Trace = [Step.getPopulace, Step.removeExclusions,
      Step.getPopulace, Step.applyTimeConstraint, Step.findPerformanceMet,
      Step.stratifyData, Step.returnFinalData] ∧
    Protocol.sdohSub1Trace = [Step.getPopulace, Step.removeExclusions,
      Step.findPerformanceMet, Step.applyTimeConstraint,
      Step.stratifyData, Step.returnFinalData] ∧
    Protocol.iservSub2Trace = [Step.getPopulace, Step.removeExclusions,
      Step.applyTimeConstraint, Step.findPerformanceMet,
      Step.setStratify, Step.returnFinalData] := by
  refine ⟨rfl, rfl, rfl, rfl, by decide, by decide, by decide, by decide⟩

/-- Claim C7, code evaluated at the failing input: the minimum-visit
filter never removes anyone (the `>= 2` mask is discarded by the
`reset_index()[...]` column selection), so a patient with a single
non-preventive qualifying visit stays in the ASC denominator, against
both the claim and the docstring of `__number_of_visits_filter`. -/
theorem c7_asc_single_visit_patient_not_removed :
    (∀ pop : List Asc1.Row, Asc1.numberOfVisitsFilter pop = pop) ∧
      Asc1.getDenominator ascSingleVisit [] [] =
        some [Asc1.Row.mk (Asc1.Enc.mk 1 25 500 (mkDay 2024 3 5) 2024) (1, 2024)] := by
  constructor
  · intro pop
    apply List.filter_eq_self.mpr
    intro r hr
    simp only [decide_eq_true_eq]
    exact mem_dedupKeepFirstBy_id.mpr (List.mem_map.mpr ⟨r, hr, rfl⟩)
  · decide

/-- Witness for the universally quantified part of the C7 theorem at a
concrete populace. -/
theorem c7_asc_single_visit_patient_not_removed_witness :
    Asc1.numberOfVisitsFilter
        [Asc1.Row.mk (Asc1.Enc.mk 1 25 500 (mkDay 2024 3 5) 2024) (1, 2024)] =
      [Asc1.Row.mk (Asc1.Enc.mk 1 25 500 (mkDay 2024 3 5) 2024) (1, 2024)] :=
  c7_asc_single_visit_patient_not_removed.1 _

/-- Every prepared screening keeps the id of some raw screening row. -/
theorem cdf_prep_key {screenings : List CdfCh.Screening} {p : CdfCh.PrepScreening}
    (hp : p ∈ CdfCh.prepScreeningsForMerge screenings) :
    ∃ s ∈ screenings, p.pmy = (s.patientId, Cal.yearOf s.screeningDate.day) := by
  rw [CdfCh.prepScreeningsForMerge] at hp
  rcases List.mem_map.mp hp with ⟨q, hq, rfl⟩
  have hq2 := mem_of_mem_dedupKeepLastBy hq
  have hq3 := List.mem_insertionSort _ |>.mp hq2
  rcases List.mem_map.mp hq3 with ⟨s, hs, rfl⟩
  exact ⟨s, hs, rfl⟩

/-- When no screening carries a given id, every merged row with that id
has a missing screening score, and every populace row with that id
produces exactly one such merged row. -/
theorem cdf_merged_score_none {pop : List CdfCh.Row}
    {screenings : List CdfCh.Screening} {key : Nat × Int}
    (hs : ∀ s ∈ screenings, (s.patientId, Cal.yearOf s.screeningDate.day) ≠ key) :
    (∀ m ∈ CdfCh.addScreeningsToPopulace pop screenings,
        m.pmy = key → m.screeningScore = none) ∧
      ∀ r ∈ pop, r.pmy = key →
        CdfCh.MergedRow.mk r none none none ∈ CdfCh.addScreeningsToPopulace pop screenings := by
  have hnone : ∀ p ∈ CdfCh.prepScreeningsForMerge screenings, ¬ p.pmy = key := by
    intro p hp hpk
    rcases cdf_prep_key hp with ⟨s, hsmem, hskey⟩
    exact hs s hsmem (hskey ▸ hpk)
  constructor
  · intro m hm hmk
    rcases mem_cmap.mp hm with ⟨r, _, hmr⟩
    rcases hcase : (CdfCh.prepScreeningsForMerge screenings).filter
        (fun s => decide (s.pmy = r.pmy)) with _ | ⟨s, rest⟩
    · rw [hcase] at hmr
      rcases List.mem_singleton.mp hmr with rfl
      rfl
    · rw [hcase] at hmr
      rcases List.mem_map.mp hmr with ⟨s2, hs2, rfl⟩
      have hs2f : s2 ∈ (CdfCh.prepScreeningsForMerge screenings).filter
          (fun s => decide (s.pmy = r.pmy)) := hcase ▸ hs2
      rcases List.mem_filter.mp hs2f with ⟨hs2p, hs2k⟩
      exact absurd (by simpa using hs2k : s2.pmy = r.pmy)
        (fun h => hnone s2 hs2p (h.trans hmk))
  · intro r hr hrk
    refine mem_cmap.mpr ⟨r, hr, ?_⟩
    rcases hcase : (CdfCh.prepScreeningsForMerge screenings).filter
        (fun s => decide (s.pmy = r.pmy)) with _ | ⟨s, rest⟩
    · rw [hcase]
      exact List.mem_singleton.mpr rfl
    · exfalso
      have hsf : s ∈ (CdfCh.prepScreeningsForMerge screenings).filter
          (fun s => decide (s.pmy = r.pmy)) := hcase ▸ List.mem_cons_self _ _
      rcases List.mem_filter.mp hsf with ⟨hsp, hsk⟩
      exact hnone s hsp ((by simpa using hsk : s.pmy = r.pmy).trans hrk)

/-- Claim C10: a CDF-CH denominator member with no depression-screening
record merged for their measurement year lands in the negative-screening
branch (a missing score is not greater than 9) and therefore appears in
the final cohort output with `numerator = True` and
`numerator_desc = Negative screening`, indistinguishable from a genuine
negative screening. -/
theorem c10_cdf_ch_null_screening_counts_as_negative
    (pop : List CdfCh.Row) (screenings : List CdfCh.Screening) (r : CdfCh.Row)
    (hr : r ∈ pop)
    (hs : ∀ s ∈ screenings, (s.patientId, Cal.yearOf s.screeningDate.day) ≠ r.pmy) :
    ∃ f ∈ CdfCh.finalPopulace pop screenings,
      f.pmy = r.pmy ∧ f.numerator = true ∧
        f.numeratorDesc = some "Negative screening" := by
  rcases @cdf_merged_score_none pop screenings r.pmy hs with ⟨hall, hex⟩
  -- every `_find_performance_met` output row with this id passed through
  -- the negative branch
  have hnum : ∀ n ∈ CdfCh.findPerformanceMet pop screenings, n.pmy = r.pmy →
      n.numerator = true ∧ n.numeratorDesc = some "Negative screening" := by
    intro n hn hnk
    rw [CdfCh.findPerformanceMet] at hn
    rcases List.mem_append.mp hn with hn | hn
    · exfalso
      rw [CdfCh.setPositiveNumerators] at hn
      rcases List.mem_append.mp hn with hn | hn
      all_goals
        rcases List.mem_map.mp hn with ⟨p, hp, rfl⟩
        rcases List.mem_map.mp (List.mem_filter.mp hp).1 with ⟨m, hm, hpm⟩
        subst hpm
        rcases List.mem_filter.mp hm with ⟨hmmem, hmpos⟩
        have hscore := hall m hmmem hnk
        rw [CdfCh.positiveScreening, hscore] at hmpos
        simp at hmpos
    · rw [CdfCh.setNegativeNumerators] at hn
      rcases List.mem_map.mp hn with ⟨m, _, rfl⟩
      exact ⟨rfl, rfl⟩
  -- the member itself contributes a negative-branch row
  have hm0 := hex r hr rfl
  have hneg : CdfCh.positiveScreening (CdfCh.MergedRow.mk r none none none) = false := rfl
  have hn0 : CdfCh.NumRow.mk (CdfCh.MergedRow.mk r none none none) none true
      (some "Negative screening") ∈ CdfCh.findPerformanceMet pop screenings := by
    rw [CdfCh.findPerformanceMet]
    refine List.mem_append.mpr (Or.inr ?_)
    rw [CdfCh.setNegativeNumerators]
    exact List.mem_map.mpr ⟨_, List.mem_filter.mpr ⟨hm0, by rw [hneg]; rfl⟩, rfl⟩
  -- the final projection keeps a row with this id
  have hkey : r.pmy ∈ (CdfCh.finalPopulace pop screenings).map (fun f => f.pmy) := by
    rw [CdfCh.finalPopulace, CdfCh.trimUnnecessaryPopulaceData, mem_keys_dedupKeepFirstBy]
    rw [List.map_map]
    exact List.mem_map.mpr ⟨_, hn0, rfl⟩
  rcases List.mem_map.mp hkey with ⟨f, hf, hfk⟩
  refine ⟨f, hf, hfk, ?_⟩
  have hf2 := mem_of_mem_dedupKeepFirstBy hf
  rcases List.mem_map.mp hf2 with ⟨n, hnmem, rfl⟩
  have := hnum n hnmem hfk
  exact this

/-- Witness for the C10 theorem: a denominator member with no screening
rows at all ends up labelled as a negative screening. -/
theorem c10_cdf_ch_null_screening_counts_as_negative_witness :
    ∃ f ∈ CdfCh.finalPopulace [cdfNoScreenRow] [],
      f.pmy = (1, 2024) ∧ f.numerator = true ∧
        f.numeratorDesc = some "Negative screening" :=
  c10_cdf_ch_null_screening_counts_as_negative [cdfNoScreenRow] [] cdfNoScreenRow
    (List.mem_singleton.mpr rfl) (by intro s hs; simp at hs)

theorem pairwise_insertionSort_rank {β : Type} [LinearOrder β] (ρ : α → β)
    (l : List α) :
    (List.insertionSort (fun a b => ρ a ≤ ρ b) l).Pairwise (fun a b => ρ a ≤ ρ b) := by
  haveI : IsTotal α (fun a b => ρ a ≤ ρ b) := ⟨fun a b => le_total _ _⟩
  haveI : IsTrans α (fun a b => ρ a ≤ ρ b) := ⟨fun a b c h1 h2 => le_trans h1 h2⟩
  exact List.sorted_insertionSort _ l

theorem pairwise_getLast_max {β : Type} [LinearOrder β] {ρ : α → β} :
    ∀ {l : List α}, l.Pairwise (fun a b => ρ a ≤ ρ b) →
      ∀ {a : α}, l.getLast? = some a → ∀ b ∈ l, ρ b ≤ ρ a := by
  intro l
  induction l with
  | nil => intro _ a ha; simp at ha
  | cons x xs ih =>
    intro hp a ha b hb
    rcases List.pairwise_cons.mp hp with ⟨hx, hxs⟩
    cases xs with
    | nil =>
      simp only [List.getLast?_singleton, Option.some.injEq] at ha
      rcases List.mem_singleton.mp hb with rfl
      rw [← ha]
    | cons y ys =>
      rw [List.getLast?_cons_cons] at ha
      rcases List.mem_cons.mp hb with rfl | hb
      · exact hx a (List.mem_of_mem_getLast? ha)
      · exact ih hxs ha b hb

theorem tsLe_iff_lex {a b : Ts} :
    Ts.le a b ↔ (toLex (a.day, a.tod) : Lex (Int × Int)) ≤ toLex (b.day, b.tod) := by
  rw [Prod.Lex.le_iff]
  exact Iff.rfl

theorem depRem_cpmyi_some {v : DepRem.Visit} {idx : List DepRem.IndexVisit}
    {u : Nat × Int} {e : Nat}
    (hidx : idx.Pairwise (fun a b => DepRem.dateRank a ≤ DepRem.dateRank b))
    (h : DepRem.createPatientMeasurementYearId v idx = some (u, e)) :
    ∃ i ∈ idx, i.patientId = v.patientId ∧ i.date.day ≤ v.date.day ∧
      u = (v.patientId, Cal.yearOf i.date.day) ∧ e = i.encounterID ∧
      ∀ j ∈ idx, j.patientId = v.patientId → j.date.day ≤ v.date.day →
        j.date.day ≤ i.date.day := by
  simp only [DepRem.createPatientMeasurementYearId] at h
  cases hl : ((idx.filter (fun i => i.patientId == v.patientId)).filter
      (fun i => decide (i.date.day ≤ v.date.day))).getLast? with
  | none => rw [hl] at h; exact absurd h (by simp)
  | some i =>
    rw [hl] at h
    have hue : u = (v.patientId, Cal.yearOf i.date.day) ∧ e = i.encounterID := by
      have h2 := Option.some.inj h
      exact ⟨(congrArg Prod.fst h2).symm, (congrArg Prod.snd h2).symm⟩
    have hmem := List.mem_of_mem_getLast? hl
    rcases List.mem_filter.mp hmem with ⟨hmem2, hday⟩
    rcases List.mem_filter.mp hmem2 with ⟨hidxmem, hpid⟩
    refine ⟨i, hidxmem, by simpa using hpid, by simpa using hday, hue.1, hue.2, ?_⟩
    intro j hj hjpid hjday
    have hpair : ((idx.filter (fun i => i.patientId == v.patientId)).filter
        (fun i => decide (i.date.day ≤ v.date.day))).Pairwise
        (fun a b => DepRem.dateRank a ≤ DepRem.dateRank b) :=
      List.Pairwise.sublist ((List.filter_sublist _).trans (List.filter_sublist _)) hidx
    have hjmem : j ∈ (idx.filter (fun i => i.patientId == v.patientId)).filter
        (fun i => decide (i.date.day ≤ v.date.day)) :=
      List.mem_filter.mpr ⟨List.mem_filter.mpr ⟨hj, by simpa using hjpid⟩, by simpa using hjday⟩
    have := pairwise_getLast_max hpair hl j hjmem
    rcases (Prod.Lex.le_iff _ _).mp this with hlt | ⟨heq, _⟩
    · exact le_of_lt hlt
    · exact le_of_eq heq

theorem depRem_cpmyi_none_iff {v : DepRem.Visit} {idx : List DepRem.IndexVisit} :
    DepRem.createPatientMeasurementYearId v idx = none ↔
      ∀ i ∈ idx, ¬ (i.patientId = v.patientId ∧ i.date.day ≤ v.date.day) := by
  have hcands : ∀ i, (i ∈ (idx.filter (fun i => i.patientId == v.patientId)).filter
      (fun i => decide (i.date.day ≤ v.date.day))) ↔
      (i ∈ idx ∧ (i.patientId = v.patientId ∧ i.date.day ≤ v.date.day)) := by
    intro i
    constructor
    · intro hmem
      rcases List.mem_filter.mp hmem with ⟨h2, hd⟩
      rcases List.mem_filter.mp h2 with ⟨hidx, hp⟩
      exact ⟨hidx, by simpa using hp, by simpa using hd⟩
    · rintro ⟨hidx, hp, hd⟩
      exact List.mem_filter.mpr ⟨List.mem_filter.mpr ⟨hidx, by simpa using hp⟩,
        by simpa using hd⟩
  constructor
  · intro h i hi hcond
    have hmem := (hcands i).mpr ⟨hi, hcond⟩
    have hne := List.ne_nil_of_mem hmem
    obtain ⟨a, ha⟩ := Option.isSome_iff_exists.mp (List.getLast?_isSome.mpr hne)
    simp only [DepRem.createPatientMeasurementYearId, ha] at h
    simp at h
  · intro hall
    have hnil : (idx.filter (fun i => i.patientId == v.patientId)).filter
        (fun i => decide (i.date.day ≤ v.date.day)) = [] := by
      rcases hcase : (idx.filter (fun i => i.patientId == v.patientId)).filter
          (fun i => decide (i.date.day ≤ v.date.day)) with _ | ⟨i, rest⟩
      · exact hcase
      · exfalso
        have hmem : i ∈ (idx.filter (fun i => i.patientId == v.patientId)).filter
            (fun i => decide (i.date.day ≤ v.date.day)) :=
          hcase ▸ List.mem_cons_self _ _
        rcases (hcands i).mp hmem with ⟨hi, hcond⟩
        exact hall i hi hcond
    simp [DepRem.createPatientMeasurementYearId, hnil]

/-- The index-visit list is date-sorted. -/
theorem depRem_index_visits_pairwise (populace : List DepRem.Visit) :
    (DepRem.getIndexVisits populace).Pairwise
      (fun a b => DepRem.dateRank a ≤ DepRem.dateRank b) := by
  rw [DepRem.getIndexVisits]
  exact List.Pairwise.sublist (dedupKeepFirstBy_sublist _ _)
    (pairwise_insertionSort_rank DepRem.dateRank _)

/-- Every index visit records its own id and year consistently. -/
theorem depRem_index_visits_wf {populace : List DepRem.Visit}
    {i : DepRem.IndexVisit} (hi : i ∈ DepRem.getIndexVisits populace) :
    i.pmy = (i.patientId, i.measurementYear) ∧
      i.measurementYear = Cal.yearOf i.date.day := by
  rw [DepRem.getIndexVisits] at hi
  have hi2 := List.mem_insertionSort _ |>.mp (mem_of_mem_dedupKeepFirstBy hi)
  rcases List.mem_map.mp hi2 with ⟨v, _, rfl⟩
  exact ⟨rfl, rfl⟩

/-- Claim C5: in DEP-REM the index visit of a `(patient, year)` pair is
a score-above-9 visit of that patient and year dated no later than any
other such visit; every retained encounter is attributed to the most
recent index visit dated (at day precision) at or before it, and its id
is the patient plus the year of that index visit; and an encounter is
retained exactly when the patient has some index visit dated at or
before it, so an encounter before every index visit of its patient is
dropped, never attached to a later index visit. -/
theorem c5_dep_rem_index_event_attribution (rows : List DepRem.Visit) :
    (∀ i ∈ DepRem.getIndexVisits (DepRem.initilizePopulace rows),
      (∃ v ∈ rows, i.patientId = v.patientId ∧ i.encounterID = v.encounterID ∧
        i.date = v.date ∧ 9 < v.score ∧
        i.pmy = (v.patientId, Cal.yearOf v.date.day) ∧
        i.measurementYear = Cal.yearOf v.date.day) ∧
      ∀ w ∈ rows, w.patientId = i.patientId →
        Cal.yearOf w.date.day = i.measurementYear → 9 < w.score →
          Ts.le i.date w.date) ∧
    (∀ r ∈ DepRem.setIndexGroups (DepRem.initilizePopulace rows)
        (DepRem.getIndexVisits (DepRem.initilizePopulace rows)),
      ∃ i ∈ DepRem.getIndexVisits (DepRem.initilizePopulace rows),
        i.patientId = r.patientId ∧ i.date.day ≤ r.date.day ∧
        r.pmy = (r.patientId, Cal.yearOf i.date.day) ∧
        r.indexEncounterId = i.encounterID ∧
        ∀ j ∈ DepRem.getIndexVisits (DepRem.initilizePopulace rows),
          j.patientId = r.patientId → j.date.day ≤ r.date.day →
            j.date.day ≤ i.date.day) ∧
    (∀ v ∈ rows,
      (∃ i ∈ DepRem.getIndexVisits (DepRem.initilizePopulace rows),
        i.patientId = v.patientId ∧ i.date.day ≤ v.date.day) →
      ∃ r ∈ DepRem.setIndexGroups (DepRem.initilizePopulace rows)
          (DepRem.getIndexVisits (DepRem.initilizePopulace rows)), r.toVisit = v) := by
  refine ⟨?_, ?_, ?_⟩
  · intro i hi
    have hwf := depRem_index_visits_wf hi
    rw [DepRem.getIndexVisits] at hi
    constructor
    · have hi2 := List.mem_insertionSort _ |>.mp (mem_of_mem_dedupKeepFirstBy hi)
      rcases List.mem_map.mp hi2 with ⟨v, hv, rfl⟩
      rcases List.mem_filter.mp hv with ⟨hvpop, hvscore⟩
      exact ⟨v, (List.mem_insertionSort _).mp hvpop, rfl, rfl, rfl,
        by simpa using hvscore, rfl, rfl⟩
    · intro w hw hwpid hwyear hwscore
      have hwpop : w ∈ DepRem.initilizePopulace rows :=
        (List.mem_insertionSort _).mpr hw
      have hwfilter : w ∈ (DepRem.initilizePopulace rows).filter
          (fun v => decide (9 < v.score)) :=
        List.mem_filter.mpr ⟨hwpop, by simpa using hwscore⟩
      have hwmap : DepRem.IndexVisit.mk w.patientId
          (w.patientId, Cal.yearOf w.date.day) w.encounterID
          (Cal.yearOf w.date.day) w.date ∈
          ((DepRem.initilizePopulace rows).filter
            (fun v => decide (9 < v.score))).map (fun v =>
              DepRem.IndexVisit.mk v.patientId (v.patientId, Cal.yearOf v.date.day)
                v.encounterID (Cal.yearOf v.date.day) v.date) :=
        List.mem_map.mpr ⟨w, hwfilter, rfl⟩
      have hwsorted := (List.mem_insertionSort
        (fun a b => DepRem.dateRank a ≤ DepRem.dateRank b)).mpr hwmap
      have hmin := dedupKeepFirstBy_min
        (pairwise_insertionSort_rank DepRem.dateRank _) i hi _ hwsorted
        (by rw [hwf.1, hwpid, hwyear])
      rw [tsLe_iff_lex]
      exact hmin
  · intro r hr
    rw [DepRem.setIndexGroups] at hr
    rcases List.mem_filterMap.mp hr with ⟨v, _, hv2⟩
    rcases Option.map_eq_some'.mp hv2 with ⟨⟨u, e⟩, hsome, hmk⟩
    rcases depRem_cpmyi_some (depRem_index_visits_pairwise _) hsome with
      ⟨i, hi, hipid, hiday, hu, he, hmax⟩
    subst hmk
    exact ⟨i, hi, hipid, hiday, hu ▸ rfl, he ▸ rfl, hmax⟩
  · intro v hv hex
    have hvpop : v ∈ DepRem.initilizePopulace rows :=
      (List.mem_insertionSort _).mpr hv
    cases hsome : DepRem.createPatientMeasurementYearId v
        (DepRem.getIndexVisits (DepRem.initilizePopulace rows)) with
    | none =>
      exfalso
      rcases hex with ⟨i, hi, hipid, hiday⟩
      exact depRem_cpmyi_none_iff.mp hsome i hi ⟨hipid, hiday⟩
    | some p =>
      refine ⟨DepRem.PVisit.mk v p.1 p.2, ?_, rfl⟩
      rw [DepRem.setIndexGroups]
      exact List.mem_filterMap.mpr ⟨v, hvpop, by rw [hsome]; rfl⟩

theorem dedupKeepFirstBy_id_nodup [DecidableEq α] (l : List α) :
    (dedupKeepFirstBy id l).Nodup := by
  have h := dedupKeepFirstBy_keys_nodup id l
  simpa using h

theorem cmap_filter (f : α → List β) (p : β → Bool) (l : List α) :
    (cmap f l).filter p = cmap (fun a => (f a).filter p) l := by
  induction l with
  | nil => rfl
  | cons x xs ih => rw [cmap, cmap, List.filter_append, ih]

theorem cmap_filter_single {κ : Type} [DecidableEq κ] (keyOf : α → κ)
    (f : κ → List α) (k : κ) :
    ∀ {keys : List κ}, keys.Nodup → k ∈ keys →
      (∀ k2 ∈ keys, ∀ x ∈ f k2, keyOf x = k2) →
      (cmap f keys).filter (fun x => decide (keyOf x = k)) = f k := by
  intro keys
  induction keys with
  | nil => intro _ hk; cases hk
  | cons k2 rest ih =>
    intro hnd hk hkey
    rcases List.nodup_cons.mp hnd with ⟨hk2rest, hndrest⟩
    rw [cmap, List.filter_append]
    rcases List.mem_cons.mp hk with rfl | hkrest
    · have h1 : (f k).filter (fun x => decide (keyOf x = k)) = f k :=
        List.filter_eq_self.mpr (fun x hx => by
          simpa using hkey k (List.mem_cons_self _ _) x hx)
      have h2 : (cmap f rest).filter (fun x => decide (keyOf x = k)) = [] := by
        apply List.filter_eq_nil_iff.mpr
        intro x hx
        rcases mem_cmap.mp hx with ⟨k3, hk3, hxk3⟩
        have := hkey k3 (List.mem_cons_of_mem _ hk3) x hxk3
        simp only [decide_eq_true_eq, this]
        exact fun hc => hk2rest (hc ▸ hk3)
      rw [h1, h2, List.append_nil]
    · have h1 : (f k2).filter (fun x => decide (keyOf x = k)) = [] := by
        apply List.filter_eq_nil_iff.mpr
        intro x hx
        have := hkey k2 (List.mem_cons_self _ _) x hx
        simp only [decide_eq_true_eq, this]
        exact fun hc => hk2rest (hc ▸ hkrest)
      rw [h1, List.nil_append]
      exact ih hndrest hkrest (fun k3 hk3 => hkey k3 (List.mem_cons_of_mem _ hk3))

theorem depRem_mem_pmyKeys {pop : List DepRem.PVisit} {k : Nat × Int} :
    k ∈ DepRem.pmyKeys pop ↔ ∃ r ∈ pop, r.pmy = k := by
  rw [DepRem.pmyKeys, mem_dedupKeepFirstBy_id]
  constructor
  · intro h; rcases List.mem_map.mp h with ⟨r, hr, hk⟩; exact ⟨r, hr, hk⟩
  · rintro ⟨r, hr, hk⟩; exact List.mem_map.mpr ⟨r, hr, hk⟩

theorem depRem_pmyKeys_nodup (pop : List DepRem.PVisit) :
    (DepRem.pmyKeys pop).Nodup :=
  dedupKeepFirstBy_id_nodup _

theorem depRem_mem_groupOf {pop : List DepRem.PVisit} {k : Nat × Int}
    {r : DepRem.PVisit} : r ∈ DepRem.groupOf pop k ↔ r ∈ pop ∧ r.pmy = k := by
  rw [DepRem.groupOf, List.mem_filter]
  simp

theorem depRem_atcGroup_subset {g : List DepRem.PVisit} {x : DepRem.PVisit}
    (hx : x ∈ DepRem.applyTimeConstraintGroup g) : x ∈ g := by
  cases g with
  | nil => simp [DepRem.applyTimeConstraintGroup] at hx
  | cons ix rest =>
    rw [DepRem.applyTimeConstraintGroup] at hx
    rcases List.mem_cons.mp hx with rfl | hx
    · exact List.mem_cons_self _ _
    · exact (List.mem_filter.mp hx).1

theorem depRem_groupOf_applyTimeConstraint (pop : List DepRem.PVisit)
    (k : Nat × Int) (hk : k ∈ DepRem.pmyKeys pop) :
    DepRem.groupOf (DepRem.applyTimeConstraint pop) k =
      DepRem.applyTimeConstraintGroup (DepRem.groupOf pop k) := by
  rw [DepRem.applyTimeConstraint, DepRem.groupOf]
  exact cmap_filter_single (fun r => r.pmy)
    (fun k2 => DepRem.applyTimeConstraintGroup (DepRem.groupOf pop k2)) k
    (depRem_pmyKeys_nodup pop) hk
    (fun k2 _ x hx => (depRem_mem_groupOf.mp (depRem_atcGroup_subset hx)).2)

theorem depRem_mem_applyTimeConstraint {pop : List DepRem.PVisit}
    {x : DepRem.PVisit} (hx : x ∈ DepRem.applyTimeConstraint pop) : x ∈ pop := by
  rw [DepRem.applyTimeConstraint] at hx
  rcases mem_cmap.mp hx with ⟨k, _, hxk⟩
  exact (depRem_mem_groupOf.mp (depRem_atcGroup_subset hxk)).1

theorem depRem_atcGroup_any_iff {g : List DepRem.PVisit} {ix : DepRem.PVisit}
    (h : g.head? = some ix) :
    ((DepRem.applyTimeConstraintGroup g).any (fun v => decide (v.score < 5)) = true) ↔
      (ix.score < 5 ∨ ∃ v ∈ g,
        (Ts.le (Ts.mk (Cal.addMonths ix.date.day 6 - 60) ix.date.tod) v.date ∧
          Ts.le v.date (Ts.mk (Cal.addMonths ix.date.day 6 + 60) ix.date.tod)) ∧
        v.score < 5) := by
  cases g with
  | nil => simp at h
  | cons a rest =>
    have ha : a = ix := by simpa using h
    subst ha
    rw [DepRem.applyTimeConstraintGroup]
    simp only [List.any_cons, Bool.or_eq_true, decide_eq_true_eq, List.any_eq_true,
      List.mem_filter, decide_eq_true_eq]
    constructor
    · rintro (h1 | ⟨v, ⟨hv, hw⟩, hs⟩)
      · exact Or.inl h1
      · exact Or.inr ⟨v, hv, hw, hs⟩
    · rintro (h1 | ⟨v, hv, hw, hs⟩)
      · exact Or.inl h1
      · exact Or.inr ⟨v, ⟨hv, hw⟩, hs⟩

/-- Claim C6 as amended: the anchor of each remission window is the
FIRST row of the index group (under the pipeline's patient/date sort,
its earliest-timestamp encounter), which is the index visit unless
another attributed encounter shares the index date with an earlier
time; the window is anchor date + 6 months, minus/plus 60 days, at
timestamp precision; rows outside the window other than the anchor are
removed by `_apply_time_constraint`; and the group's numerator is true
exactly when the anchor itself scores below 5 or some encounter of the
group inside the window scores below 5. -/
theorem c6_amended_dep_rem_remission_window (pop : List DepRem.PVisit)
    (k : Nat × Int) (hk : k ∈ DepRem.pmyKeys pop) :
    ∃ ix, (DepRem.groupOf pop k).head? = some ix ∧
      ((k ∈ DepRem.checkNumeratorCondition (DepRem.applyTimeConstraint pop)) ↔
        (ix.score < 5 ∨ ∃ v ∈ DepRem.groupOf pop k,
          (Ts.le (Ts.mk (Cal.addMonths ix.date.day 6 - 60) ix.date.tod) v.date ∧
            Ts.le v.date (Ts.mk (Cal.addMonths ix.date.day 6 + 60) ix.date.tod)) ∧
          v.score < 5)) ∧
      (∀ w ∈ DepRem.groupOf (DepRem.applyTimeConstraint pop) k,
        w = ix ∨
          (Ts.le (Ts.mk (Cal.addMonths ix.date.day 6 - 60) ix.date.tod) w.date ∧
            Ts.le w.date (Ts.mk (Cal.addMonths ix.date.day 6 + 60) ix.date.tod))) ∧
      (pop.Pairwise (fun a b => depRemPVisitRank a ≤ depRemPVisitRank b) →
        (∀ r ∈ pop, r.pmy.1 = r.patientId) →
          ∀ v ∈ DepRem.groupOf pop k, Ts.le ix.date v.date) := by
  rcases depRem_mem_pmyKeys.mp hk with ⟨r0, hr0, hr0k⟩
  have hr0g : r0 ∈ DepRem.groupOf pop k := depRem_mem_groupOf.mpr ⟨hr0, hr0k⟩
  cases hg : DepRem.groupOf pop k with
  | nil => rw [hg] at hr0g; cases hr0g
  | cons ix rest =>
    have hhead : (ix :: rest).head? = some ix := rfl
    have hixg : ix ∈ DepRem.groupOf pop k := by rw [hg]; exact List.mem_cons_self _ _
    have hdist : DepRem.groupOf (DepRem.applyTimeConstraint pop) k =
        DepRem.applyTimeConstraintGroup (ix :: rest) := by
      rw [depRem_groupOf_applyTimeConstraint pop k hk, hg]
    refine ⟨ix, rfl, ?_, ?_, ?_⟩
    · have hixpop2 : ix ∈ DepRem.applyTimeConstraint pop := by
        rw [DepRem.applyTimeConstraint]
        refine mem_cmap.mpr ⟨k, ?_, ?_⟩
        · exact hk
        · rw [hg, DepRem.applyTimeConstraintGroup]
          exact List.mem_cons_self _ _
      have hkeys2 : k ∈ DepRem.pmyKeys (DepRem.applyTimeConstraint pop) :=
        depRem_mem_pmyKeys.mpr ⟨ix, hixpop2, (depRem_mem_groupOf.mp hixg).2⟩
      rw [DepRem.checkNumeratorCondition]
      constructor
      · intro hmemf
        have hq := (List.mem_filter.mp hmemf).2
        rw [hdist] at hq
        exact (depRem_atcGroup_any_iff hhead).mp hq
      · intro hrhs
        refine List.mem_filter.mpr ⟨hkeys2, ?_⟩
        rw [hdist]
        exact (depRem_atcGroup_any_iff hhead).mpr hrhs
    · intro w hw
      rw [hdist, DepRem.applyTimeConstraintGroup] at hw
      rcases List.mem_cons.mp hw with rfl | hw
      · exact Or.inl rfl
      · exact Or.inr (by simpa using (List.mem_filter.mp hw).2)
    · intro hsorted hwf v hv
      have hgsub : (ix :: rest).Pairwise
          (fun a b => depRemPVisitRank a ≤ depRemPVisitRank b) := by
        rw [← hg]
        exact List.Pairwise.sublist (List.filter_sublist _) hsorted
      rcases List.mem_cons.mp hv with rfl | hv
      · exact Ts.le_refl _
      · have hle := (List.pairwise_cons.mp hgsub).1 v hv
        have hpid : ix.patientId = v.patientId := by
          have h1 := hwf ix (depRem_mem_groupOf.mp hixg).1
          have h2 := hwf v (depRem_mem_groupOf.mp (by
            rw [hg]; exact List.mem_cons_of_mem _ hv)).1
          have h3 := (depRem_mem_groupOf.mp hixg).2
          have h4 := (depRem_mem_groupOf.mp (show v ∈ DepRem.groupOf pop k by
            rw [hg]; exact List.mem_cons_of_mem _ hv)).2
          rw [← h1, ← h2, h3, h4]
        rcases (Prod.Lex.le_iff _ _).mp hle with hlt | ⟨_, hdle⟩
        · exact absurd hpid (ne_of_lt hlt)
        · exact tsLe_iff_lex.mpr hdle

/-- Claim C6, counterexample: on `depRemSameDayRows` the index visit is
the score-15 encounter (id 22), and no encounter of its group inside the
claim's window around the INDEX date scores below 5 — yet the final
cohort carries `numerator = True`, because `_apply_time_constraint`
anchors at `patient_data.iloc[0]`, the same-day earlier-time score-3
encounter, and always retains that anchor row, which
`_find_performance_met` then counts as a remission. -/
theorem c6_counterexample_dep_rem_anchor_not_index :
    DepRem.getIndexVisits (DepRem.initilizePopulace depRemSameDayRows) =
        [DepRem.IndexVisit.mk 1 (1, 2024) 22 2024
          (Ts.mk (Cal.daysFromCivil 2024 3 5) 1000)] ∧
      depRemClaimRemissionMet
          (DepRem.groupOf (DepRem.getDenominator depRemSameDayRows []) (1, 2024))
          (Ts.mk (Cal.daysFromCivil 2024 3 5) 1000) = false ∧
      (DepRem.finalPopulace depRemSameDayRows []).map (fun r => r.numerator) =
        [true] := by
  refine ⟨by decide, by decide, by decide⟩

/-- Witness for the attribution part of the C5 theorem at a concrete
populace. -/
theorem c5_dep_rem_index_event_attribution_witness :
    ∃ i ∈ DepRem.getIndexVisits (DepRem.initilizePopulace depRemWitnessRows),
      i.patientId = (DepRem.PVisit.mk
          (DepRem.Visit.mk 1 (mkDay 1990 1 1) 12 (mkDay 2024 3 4) 3)
          (1, 2024) 11).patientId ∧
      i.date.day ≤ (mkDay 2024 3 4).day ∧
      (DepRem.PVisit.mk (DepRem.Visit.mk 1 (mkDay 1990 1 1) 12 (mkDay 2024 3 4) 3)
          (1, 2024) 11).pmy = (1, Cal.yearOf i.date.day) ∧
      (DepRem.PVisit.mk (DepRem.Visit.mk 1 (mkDay 1990 1 1) 12 (mkDay 2024 3 4) 3)
          (1, 2024) 11).indexEncounterId = i.encounterID ∧
      ∀ j ∈ DepRem.getIndexVisits (DepRem.initilizePopulace depRemWitnessRows),
        j.patientId = 1 → j.date.day ≤ (mkDay 2024 3 4).day →
          j.date.day ≤ i.date.day :=
  (c5_dep_rem_index_event_attribution depRemWitnessRows).2.1
    (DepRem.PVisit.mk (DepRem.Visit.mk 1 (mkDay 1990 1 1) 12 (mkDay 2024 3 4) 3)
      (1, 2024) 11)
    (by decide)

/-- Witness for the C6 theorem at a concrete populace (the attributed
rows of `depRemWitnessRows`), with the numerator equivalence
instantiated. -/
theorem c6_amended_dep_rem_remission_window_witness :
    ∃ ix, (DepRem.groupOf (DepRem.getDenominator depRemWitnessRows []) (1, 2024)).head? =
        some ix ∧
      (((1, 2024) ∈ DepRem.checkNumeratorCondition
          (DepRem.applyTimeConstraint (DepRem.getDenominator depRemWitnessRows []))) ↔
        (ix.score < 5 ∨ ∃ v ∈ DepRem.groupOf (DepRem.getDenominator depRemWitnessRows [])
            (1, 2024),
          (Ts.le (Ts.mk (Cal.addMonths ix.date.day 6 - 60) ix.date.tod) v.date ∧
            Ts.le v.date (Ts.mk (Cal.addMonths ix.date.day 6 + 60) ix.date.tod)) ∧
          v.score < 5)) ∧
      (∀ w ∈ DepRem.groupOf
          (DepRem.applyTimeConstraint (DepRem.getDenominator depRemWitnessRows []))
          (1, 2024),
        w = ix ∨
          (Ts.le (Ts.mk (Cal.addMonths ix.date.day 6 - 60) ix.date.tod) w.date ∧
            Ts.le w.date (Ts.mk (Cal.addMonths ix.date.day 6 + 60) ix.date.tod))) ∧
      ((DepRem.getDenominator depRemWitnessRows []).Pairwise
          (fun a b => depRemPVisitRank a ≤ depRemPVisitRank b) →
        (∀ r ∈ DepRem.getDenominator depRemWitnessRows [], r.pmy.1 = r.patientId) →
          ∀ v ∈ DepRem.groupOf (DepRem.getDenominator depRemWitnessRows []) (1, 2024),
            Ts.le ix.date v.date) :=
  c6_amended_dep_rem_remission_window (DepRem.getDenominator depRemWitnessRows [])
    (1, 2024) (by decide)

/-- Claim C8, counterexample: the I-SERV age filter keeps the patient
(`measurement_year - DOB.year = 2024 - 2012 = 12`), although the
claim's formula `(encounter_date - DOB).days // 365.25` evaluates to 11
at the contact date, which the claim says must be excluded. -/
theorem c8_counterexample_iserv_age_not_day_based :
    Iserv1.removeAge [iservYoungRow] = [iservYoungRow] ∧
      ageYears (mkDay 2024 1 2) (mkDay 2012 7 1) = 11 ∧ ¬ (12 ≤ (11 : Int)) := by
  refine ⟨by decide, by decide, by decide⟩

/-- Claim C8 as amended: the CDF-CH, SDOH and DEP-REM age filters use
the day-based age `(date - DOB).days // 365.25` with inclusive bounds
(12..17, 18+, and 12+ respectively) — a patient aged exactly 12 passes
the CDF-CH filter and one a day younger does not — while I-SERV sub-1
instead uses the calendar-year difference `measurement_year - DOB.year`
(inclusive at 12), and ASC takes `DATEDIFF(year, DOB, VisitDateTime)`
from SQL, likewise a year difference. -/
theorem c8_amended_age_band_filters :
    (∀ (l : List CdfCh.Row) (r : CdfCh.Row),
      r ∈ CdfCh.filterAge l ↔
        r ∈ l ∧ 12 ≤ ageYears r.visitDateTime r.dob ∧
          ageYears r.visitDateTime r.dob ≤ 17) ∧
    (∀ (l : List Sdoh.Row) (r : Sdoh.Row),
      r ∈ Sdoh.filterAge l ↔ r ∈ l ∧ 18 ≤ ageYears r.visitDateTime r.dob) ∧
    (∀ (l : List DepRem.StratRow) (r : DepRem.StratRow),
      r ∈ DepRem.ageFilter l ↔ r ∈ l ∧ 12 ≤ ageYears r.date r.dob) ∧
    (∀ (l : List Iserv1.Row) (r : Iserv1.Row),
      r ∈ Iserv1.removeAge l ↔
        r ∈ l ∧ 12 ≤ r.measurementYear - Cal.yearOf r.dob.day) ∧
    CdfCh.filterAge [cdfAge12Row] = [cdfAge12Row] ∧
    CdfCh.filterAge [cdfAge11Row] = [] := by
  refine ⟨?_, ?_, ?_, ?_, by decide, by decide⟩
  · intro l r
    rw [CdfCh.filterAge, List.mem_filter, CdfCh.calculateAge]
    simp
  · intro l r
    rw [Sdoh.filterAge, List.mem_filter, Sdoh.calculateAge]
    simp
  · intro l r
    rw [DepRem.ageFilter, List.mem_filter, DepRem.stratAge]
    simp
  · intro l r
    rw [Iserv1.removeAge, List.mem_filter, Iserv1.calculateAge]
    simp

/-- Witness for the C8 amended theorem: the boundary patient aged
exactly 12 is a member of the filtered CDF-CH list. -/
theorem c8_amended_age_band_filters_witness :
    cdfAge12Row ∈ CdfCh.filterAge [cdfAge12Row] :=
  (c8_amended_age_band_filters.1 [cdfAge12Row] cdfAge12Row).mpr
    ⟨List.mem_singleton.mpr rfl, by decide, by decide⟩

theorem cmap_append (f : α → List β) (a b : List α) :
    cmap f (a ++ b) = cmap f a ++ cmap f b := by
  induction a with
  | nil => rfl
  | cons x xs ih => rw [List.cons_append, cmap, cmap, ih, List.append_assoc]

theorem cmap_map (g : β → List γ) (f : α → β) (l : List α) :
    cmap g (l.map f) = cmap (fun a => g (f a)) l := by
  induction l with
  | nil => rfl
  | cons x xs ih => rw [List.map_cons, cmap, cmap, ih]

theorem cmap_ite (p : α → Bool) (f : α → β) (l : List α) :
    cmap (fun a => if p a then [f a] else []) l = (l.filter p).map f := by
  induction l with
  | nil => rfl
  | cons x xs ih =>
    rw [cmap, List.filter_cons]
    by_cases h : p x
    · rw [if_pos h, if_pos h, List.map_cons, List.singleton_append, ih]
    · rw [if_neg h, if_neg h, List.nil_append, ih]

theorem alookup_map_keys {κ β : Type} [DecidableEq κ] (g : κ → β) (c : κ) :
    ∀ keys : List κ,
      alookup c (keys.map (fun e => (e, g e))) =
        if c ∈ keys then some (g c) else none
  | [] => by simp [alookup]
  | k :: rest => by
    rw [List.map_cons, alookup]
    by_cases h : c = k
    · subst h
      simp [List.mem_cons]
    · rw [if_neg h, alookup_map_keys g c rest]
      by_cases h2 : c ∈ rest
      · rw [if_pos h2, if_pos (List.mem_cons_of_mem _ h2)]
      · rw [if_neg h2, if_neg (fun hc => by
          rcases List.mem_cons.mp hc with hck | hcr
          · exact h hck
          · exact h2 hcr)]

theorem mem_map_fst_iff_filter_ne_nil {κ β : Type} [DecidableEq κ]
    {l : List (κ × β)} {c : κ} :
    c ∈ l.map Prod.fst ↔ l.filter (fun q => q.1 == c) ≠ [] := by
  constructor
  · intro h
    rcases List.mem_map.mp h with ⟨q, hq, hqc⟩
    intro hnil
    exact (List.filter_eq_nil_iff.mp hnil) q hq (by simp [hqc])
  · intro h
    rcases List.exists_mem_of_ne_nil _ h with ⟨q, hq⟩
    rcases List.mem_filter.mp hq with ⟨hql, hqc⟩
    exact List.mem_map.mpr ⟨q, hql, by simpa using hqc⟩

theorem beqFalseOfNe {α : Type} [BEq α] [LawfulBEq α] {a b : α}
    (h : ¬ a = b) : (a == b) = false := by
  cases hc : a == b
  · rfl
  · exact absurd (eq_of_beq hc) h

theorem beq_symm_eq {α : Type} [BEq α] [LawfulBEq α] (a b : α) :
    (a == b) = (b == a) := by
  by_cases h : a = b
  · subst h; rfl
  · rw [beqFalseOfNe h, beqFalseOfNe (fun hh => h hh.symm)]

theorem filter_map_clean {α β : Type} (f : α → β) (p : β → Bool) (l : List α) :
    (l.map f).filter p = (l.filter (fun a => p (f a))).map f := by
  induction l with
  | nil => rfl
  | cons a l ih => cases h : p (f a) <;> simp [List.filter_cons, h, ih]

theorem filter_key_map {α γ : Type} (key : α → Nat) (c : γ) (i : Nat)
    (l : List α) :
    ((l.map (fun t => (key t, c))).filter (fun q => q.1 == i)) =
      (l.filter (fun t => key t == i)).map (fun t => (key t, c)) := by
  induction l with
  | nil => rfl
  | cons a l ih => cases h : key a == i <;> simp [List.filter_cons, h, ih]

theorem filter_swap {α : Type} (p q : α → Bool) (l : List α) :
    (l.filter p).filter q = (l.filter q).filter p := by
  induction l with
  | nil => rfl
  | cons a l ih =>
    cases hp : p a <;> cases hq : q a <;> simp [List.filter_cons, hp, hq, ih]

theorem filter2_split {α : Type} (p q : α → Bool) (l : List α) :
    l.filter (fun a => p a && q a) = (l.filter p).filter q := by
  induction l with
  | nil => rfl
  | cons a l ih =>
    cases hp : p a <;> cases hq : q a <;> simp [List.filter_cons, hp, hq, ih]

theorem depRem_single_span_group
    (strat : List DepRem.StratP) (now : Ts) (rec : DepRem.StratP)
    (hienc : strat.filter (fun t => t.indexEncounterId == rec.indexEncounterId) = [rec])
    (hpd : strat.filter
      (fun t => t.patientId == rec.patientId && t.date == rec.date) = [rec])
    (s : InsuranceSpan) :
    (cmap (fun p => (strat.filter
        (fun r => r.patientId == p.1.patientId && r.date == p.2)).map
        (fun r => (r.indexEncounterId, DepRem.medicaidEncoding p.1)))
      (((strat.filter (fun r => r.patientId == s.patientId)).map
          (fun r => (s, r.date))).filter
        (fun p => decide (Ts.le p.1.start p.2 ∧ Ts.le p.2 (p.1.stop.getD now))))).filter
      (fun q => q.1 == rec.indexEncounterId)
    = (if (s.patientId == rec.patientId &&
          decide (Ts.le s.start rec.date ∧ Ts.le rec.date (s.stop.getD now))) = true then
        [(rec.indexEncounterId, DepRem.medicaidEncoding s)]
      else []) := by
  rw [cmap_filter, filter_map_clean, cmap_map]
  show cmap (fun r : DepRem.StratP => ((strat.filter
        (fun t => t.patientId == s.patientId && t.date == r.date)).map
        (fun t => (t.indexEncounterId, DepRem.medicaidEncoding s))).filter
        (fun q => q.1 == rec.indexEncounterId))
      ((strat.filter (fun r => r.patientId == s.patientId)).filter
        (fun r => decide (Ts.le s.start r.date ∧ Ts.le r.date (s.stop.getD now)))) = _
  have hinner : ∀ rdate : Ts,
      ((strat.filter (fun t => t.patientId == s.patientId && t.date == rdate)).map
        (fun t => (t.indexEncounterId, DepRem.medicaidEncoding s))).filter
        (fun q => q.1 == rec.indexEncounterId)
      = if (rec.patientId == s.patientId && rec.date == rdate) = true then
          [(rec.indexEncounterId, DepRem.medicaidEncoding s)] else [] := by
    intro rdate
    rw [filter_key_map]
    have hsw : (strat.filter
        (fun t => t.patientId == s.patientId && t.date == rdate)).filter
        (fun t => t.indexEncounterId == rec.indexEncounterId)
        = (strat.filter (fun t => t.indexEncounterId == rec.indexEncounterId)).filter
          (fun t => t.patientId == s.patientId && t.date == rdate) :=
      filter_swap _ _ _
    rw [hsw, hienc]
    by_cases hc : (rec.patientId == s.patientId && rec.date == rdate) = true <;>
      simp [List.filter_cons, hc]
  have hpt : (fun r : DepRem.StratP => ((strat.filter
        (fun t => t.patientId == s.patientId && t.date == r.date)).map
        (fun t => (t.indexEncounterId, DepRem.medicaidEncoding s))).filter
        (fun q => q.1 == rec.indexEncounterId))
      = fun r : DepRem.StratP =>
        if (rec.patientId == s.patientId && rec.date == r.date) = true then
          [(rec.indexEncounterId, DepRem.medicaidEncoding s)] else [] :=
    funext (fun r => hinner r.date)
  rw [hpt, cmap_ite]
  have hcc : (((strat.filter (fun r => r.patientId == s.patientId)).filter
      (fun r => decide (Ts.le s.start r.date ∧ Ts.le r.date (s.stop.getD now)))).filter
      (fun r => rec.patientId == s.patientId && rec.date == r.date))
      = (((strat.filter (fun r => r.patientId == s.patientId)).filter
        (fun r => rec.patientId == s.patientId && rec.date == r.date)).filter
        (fun r => decide (Ts.le s.start r.date ∧ Ts.le r.date (s.stop.getD now)))) :=
    filter_swap _ _ _
  rw [hcc]
  by_cases hps : s.patientId = rec.patientId
  · have hmerge : (strat.filter (fun r => r.patientId == s.patientId)).filter
        (fun r => rec.patientId == s.patientId && rec.date == r.date)
        = strat.filter (fun t => (t.patientId == s.patientId) &&
          (rec.patientId == s.patientId && rec.date == t.date)) :=
      (filter2_split _ _ _).symm
    have hcongr : strat.filter (fun t => (t.patientId == s.patientId) &&
        (rec.patientId == s.patientId && rec.date == t.date))
        = strat.filter (fun t => t.patientId == rec.patientId && t.date == rec.date) :=
      List.filter_congr (fun t _ => by
        rw [hps, beq_self_eq_true, Bool.true_and, beq_symm_eq rec.date t.date])
    rw [hmerge, hcongr, hpd]
    by_cases hact : Ts.le s.start rec.date ∧ Ts.le rec.date (s.stop.getD now) <;>
      simp [List.filter_cons, hact, hps]
  · have hf : (rec.patientId == s.patientId) = false :=
      beqFalseOfNe (fun h => hps h.symm)
    have hnone : (strat.filter (fun r => r.patientId == s.patientId)).filter
        (fun r => rec.patientId == s.patientId && rec.date == r.date) = [] :=
      List.filter_eq_nil_iff.mpr (fun t _ => by simp [hf])
    rw [hnone, List.filter_nil, List.map_nil]
    have hf2 : (s.patientId == rec.patientId) = false := beqFalseOfNe hps
    simp [hf2]

theorem depRem_merged_group_eq
    (strat : List DepRem.StratP) (now : Ts) (rec : DepRem.StratP)
    (hienc : strat.filter (fun t => t.indexEncounterId == rec.indexEncounterId) = [rec])
    (hpd : strat.filter
      (fun t => t.patientId == rec.patientId && t.date == rec.date) = [rec])
    (spans : List InsuranceSpan) :
    (cmap (fun p => (strat.filter
        (fun r => r.patientId == p.1.patientId && r.date == p.2)).map
        (fun r => (r.indexEncounterId, DepRem.medicaidEncoding p.1)))
      (DepRem.filterInsuranceDates
        (DepRem.mergeMediciadWithStratify spans strat) now)).filter
      (fun q => q.1 == rec.indexEncounterId)
    = (spans.filter (fun s => s.patientId == rec.patientId &&
        decide (Ts.le s.start rec.date ∧ Ts.le rec.date (s.stop.getD now)))).map
        (fun s => (rec.indexEncounterId, DepRem.medicaidEncoding s)) := by
  induction spans with
  | nil => rfl
  | cons s spans ih =>
    have hsplit : DepRem.filterInsuranceDates
        (DepRem.mergeMediciadWithStratify (s :: spans) strat) now
        = ((strat.filter (fun r => r.patientId == s.patientId)).map
            (fun r => (s, r.date))).filter
            (fun p => decide (Ts.le p.1.start p.2 ∧ Ts.le p.2 (p.1.stop.getD now)))
          ++ DepRem.filterInsuranceDates
            (DepRem.mergeMediciadWithStratify spans strat) now := by
      show (((strat.filter (fun r => r.patientId == s.patientId)).map
          (fun r => (s, r.date)))
          ++ DepRem.mergeMediciadWithStratify spans strat).filter
          (fun p => decide (Ts.le p.1.start p.2 ∧ Ts.le p.2 (p.1.stop.getD now))) = _
      rw [List.filter_append]
      rfl
    rw [hsplit, cmap_append, List.filter_append,
      depRem_single_span_group strat now rec hienc hpd s, ih]
    by_cases hs : s.patientId = rec.patientId ∧
        (Ts.le s.start rec.date ∧ Ts.le rec.date (s.stop.getD now)) <;>
      simp [List.filter_cons, hs]

/-- C3: in DEP-REM, for a cohort record whose index encounter id is unique in
the stratify table and whose patient/date pair picks out exactly that row, the
Medicaid-only flag computed by `__find_patients_with_only_medicaids` is `true`
if and only if the sum of the \x7bMedicaid=1, other=2\x7d encoding over the
insurance spans of that patient that are active at the record date (a null end
date counting as still active now) is exactly 1. -/
theorem c3_dep_rem_medicaid_flag_iff_sum_one
    (strat : List DepRem.StratP) (spans : List InsuranceSpan) (now : Ts)
    (rec : DepRem.StratP)
    (hienc : strat.filter (fun t => t.indexEncounterId == rec.indexEncounterId) = [rec])
    (hpd : strat.filter
      (fun t => t.patientId == rec.patientId && t.date == rec.date) = [rec]) :
    (alookup rec.indexEncounterId
      (DepRem.findPatientsWithOnlyMedicaids
        (DepRem.filterInsuranceDates
          (DepRem.mergeMediciadWithStratify spans strat) now) strat) = some true)
    ↔ ((spans.filter (fun s => s.patientId == rec.patientId &&
        decide (Ts.le s.start rec.date ∧ Ts.le rec.date (s.stop.getD now)))).map
        DepRem.medicaidEncoding).sum = 1 := by
  have hmg := depRem_merged_group_eq strat now rec hienc hpd spans
  have hres : DepRem.findPatientsWithOnlyMedicaids
      (DepRem.filterInsuranceDates (DepRem.mergeMediciadWithStratify spans strat) now)
      strat
      = (dedupKeepFirstBy id
          ((cmap (fun p => (strat.filter
              (fun r => r.patientId == p.1.patientId && r.date == p.2)).map
              (fun r => (r.indexEncounterId, DepRem.medicaidEncoding p.1)))
            (DepRem.filterInsuranceDates
              (DepRem.mergeMediciadWithStratify spans strat) now)).map
            (fun q => q.1))).map
          (fun e => (e, decide ((((cmap (fun p => (strat.filter
              (fun r => r.patientId == p.1.patientId && r.date == p.2)).map
              (fun r => (r.indexEncounterId, DepRem.medicaidEncoding p.1)))
            (DepRem.filterInsuranceDates
              (DepRem.mergeMediciadWithStratify spans strat) now)).filter
              (fun q => q.1 == e)).map (fun q => q.2)).sum = 1))) := rfl
  rw [hres, alookup_map_keys]
  by_cases hk : rec.indexEncounterId ∈ dedupKeepFirstBy id
      ((cmap (fun p => (strat.filter
          (fun r => r.patientId == p.1.patientId && r.date == p.2)).map
          (fun r => (r.indexEncounterId, DepRem.medicaidEncoding p.1)))
        (DepRem.filterInsuranceDates
          (DepRem.mergeMediciadWithStratify spans strat) now)).map (fun q => q.1))
  · rw [if_pos hk]
    have hsum : (((cmap (fun p => (strat.filter
          (fun r => r.patientId == p.1.patientId && r.date == p.2)).map
          (fun r => (r.indexEncounterId, DepRem.medicaidEncoding p.1)))
        (DepRem.filterInsuranceDates
          (DepRem.mergeMediciadWithStratify spans strat) now)).filter
          (fun q => q.1 == rec.indexEncounterId)).map (fun q => q.2)).sum
        = ((spans.filter (fun s => s.patientId == rec.patientId &&
            decide (Ts.le s.start rec.date ∧ Ts.le rec.date (s.stop.getD now)))).map
            DepRem.medicaidEncoding).sum := by
      rw [hmg, List.map_map]
      rfl
    rw [hsum]
    simp
  · rw [if_neg hk]
    have hnil : (cmap (fun p => (strat.filter
        (fun r => r.patientId == p.1.patientId && r.date == p.2)).map
        (fun r => (r.indexEncounterId, DepRem.medicaidEncoding p.1)))
      (DepRem.filterInsuranceDates
        (DepRem.mergeMediciadWithStratify spans strat) now)).filter
        (fun q => q.1 == rec.indexEncounterId) = [] := by
      by_contra hne
      exact hk (mem_dedupKeepFirstBy_id.mpr (mem_map_fst_iff_filter_ne_nil.mpr hne))
    have hspan : spans.filter (fun s => s.patientId == rec.patientId &&
        decide (Ts.le s.start rec.date ∧ Ts.le rec.date (s.stop.getD now))) = [] :=
      List.map_eq_nil_iff.mp (hmg.symm.trans hnil)
    rw [hspan]
    simp

set_option maxRecDepth 4000 in
theorem c3_dep_rem_medicaid_flag_iff_sum_one_witness :
    alookup depRemC3Rec.indexEncounterId
      (DepRem.findPatientsWithOnlyMedicaids
        (DepRem.filterInsuranceDates
          (DepRem.mergeMediciadWithStratify depRemC3Spans depRemC3Strat)
          (mkDay 2025 1 1)) depRemC3Strat) = some true :=
  (c3_dep_rem_medicaid_flag_iff_sum_one depRemC3Strat depRemC3Spans (mkDay 2025 1 1)
    depRemC3Rec (by decide) (by decide)).mpr (by decide)

theorem alookup_isSome_mem {κ β : Type} [DecidableEq κ] {c : κ} {b : β} :
    ∀ {l : List (κ × β)}, alookup c l = some b → c ∈ l.map Prod.fst
  | [], h => by simp [alookup] at h
  | (k, v) :: xs, h => by
    by_cases hc : c = k
    · simp [hc]
    · simp only [alookup, if_neg hc] at h
      simp [alookup_isSome_mem h]

theorem cdf_getEncounterData_map_fst (strat : List CdfCh.CStratRow)
    (spans : List InsuranceSpan) (now : Ts) :
    (CdfCh.getEncounterData strat spans now).map Prod.fst = strat := by
  simp only [CdfCh.getEncounterData, List.map_map]
  exact List.map_id strat

theorem cdf_merged_span_mem {spans : List InsuranceSpan}
    {strat : List CdfCh.CStratRow} {now : Ts} {m : InsuranceSpan × CdfCh.CStratRow}
    (hm : m ∈ CdfCh.filterInsuranceDates
      (CdfCh.mergeMediciadWithStratify spans strat) now) :
    m.1 ∈ spans ∧ m.2.patientId = m.1.patientId := by
  rcases List.mem_filterMap.mp hm with ⟨p, hp, hfp⟩
  rcases mem_cmap.mp hp with ⟨s, hs, hpin⟩
  rcases hcase : strat.filter (fun r => r.patientId == s.patientId) with _ | ⟨t, ts⟩
  · rw [hcase] at hpin
    rcases List.mem_singleton.mp hpin with rfl
    simp at hfp
  · rw [hcase] at hpin
    rcases List.mem_map.mp hpin with ⟨r, hr, hrp⟩
    have hrmem : r ∈ strat.filter (fun r2 => r2.patientId == s.patientId) := by
      rw [hcase]; exact hr
    have hrpid : r.patientId = s.patientId := by
      have := (List.mem_filter.mp hrmem).2
      simpa using this
    subst hrp
    simp only at hfp
    rcases hsplit : (decide (Ts.le s.start (r.screeningDate.getD r.visitDate) ∧
        Ts.le (r.screeningDate.getD r.visitDate) (s.stop.getD now))) with _ | _
    · rw [if_neg (by simpa using hsplit)] at hfp
      exact absurd hfp (by simp)
    · rw [if_pos (by simpa using hsplit)] at hfp
      have hmp : (s, r) = m := by simpa using hfp
      rw [← hmp]
      exact ⟨hs, hrpid⟩

theorem cdf_uninsured_kept_false {strat : List CdfCh.CStratRow}
    {spans : List InsuranceSpan} {now : Ts} {r : CdfCh.CStratRow}
    (hr : r ∈ strat) (hno : ∀ s ∈ spans, s.patientId ≠ r.pmy.1) :
    (r, false) ∈ CdfCh.getEncounterData strat spans now := by
  have hnone : alookup r.pmy (CdfCh.findPatientsWithOnlyMedicaids
      (CdfCh.filterInsuranceDates
        (CdfCh.mergeMediciadWithStratify spans strat) now)) = none := by
    apply alookup_eq_none
    intro p hp
    simp only [CdfCh.findPatientsWithOnlyMedicaids] at hp
    rcases List.mem_map.mp hp with ⟨k, hk, hkp⟩
    have hk2 := mem_dedupKeepFirstBy_id.mp hk
    rcases List.mem_map.mp hk2 with ⟨q, hq, hqk⟩
    rcases List.mem_map.mp hq with ⟨m, hmm, hmq⟩
    have hspan := cdf_merged_span_mem hmm
    intro hcontra
    apply hno m.1 hspan.1
    have hp1 : p.1 = k := by rw [← hkp]
    have hq1 : q.1 = CdfCh.recreateMeasurementYearId m := by rw [← hmq]
    have : CdfCh.recreateMeasurementYearId m = r.pmy := by
      rw [← hq1, hqk, ← hp1, hcontra]
    have hfst : m.2.patientId = r.pmy.1 := by
      have := congrArg Prod.fst this
      simpa [CdfCh.recreateMeasurementYearId] using this
    rw [← hspan.2]
    exact hfst
  have hmem : (r, (alookup r.pmy (CdfCh.findPatientsWithOnlyMedicaids
      (CdfCh.filterInsuranceDates
        (CdfCh.mergeMediciadWithStratify spans strat) now))).getD false)
      ∈ List.map (fun t : CdfCh.CStratRow => (t, (alookup t.pmy
        (CdfCh.findPatientsWithOnlyMedicaids
          (CdfCh.filterInsuranceDates
            (CdfCh.mergeMediciadWithStratify spans strat) now))).getD false)) strat :=
    List.mem_map_of_mem _ hr
  rw [hnone] at hmem
  exact hmem

theorem depRem_uninsured_dropped (strat : List DepRem.StratP)
    (spans : List InsuranceSpan) (now : Ts) (rec : DepRem.StratP)
    (hienc : strat.filter (fun t => t.indexEncounterId == rec.indexEncounterId) = [rec])
    (hno : ∀ s ∈ spans, s.patientId ≠ rec.patientId) :
    rec ∉ (DepRem.getEncounterData strat spans now).map DepRem.StratM.toStratP := by
  intro hmem
  simp only [DepRem.getEncounterData] at hmem
  rcases List.mem_map.mp hmem with ⟨m, hm, hmr⟩
  rcases List.mem_filterMap.mp hm with ⟨r, hr, hfr⟩
  rcases Option.map_eq_some'.mp hfr with ⟨b, hb, hmb⟩
  have hrec : r = rec := by
    subst hmb
    exact hmr
  subst hrec
  have hnone : alookup r.indexEncounterId (DepRem.findPatientsWithOnlyMedicaids
      (DepRem.filterInsuranceDates (DepRem.mergeMediciadWithStratify spans strat) now)
      strat) = none := by
    apply alookup_eq_none
    intro p hp
    simp only [DepRem.findPatientsWithOnlyMedicaids] at hp
    rcases List.mem_map.mp hp with ⟨k, hk, hkp⟩
    have hk2 := mem_dedupKeepFirstBy_id.mp hk
    rcases List.mem_map.mp hk2 with ⟨q, hq, hqk⟩
    rcases mem_cmap.mp hq with ⟨pr, hpr, hqpr⟩
    rcases List.mem_map.mp hqpr with ⟨t, ht, htq⟩
    intro hcontra
    have h3 : q.1 = t.indexEncounterId := by rw [← htq]
    have h2 : p.1 = k := by rw [← hkp]
    have htienc : t.indexEncounterId = r.indexEncounterId :=
      h3.symm.trans (hqk.trans (h2.symm.trans hcontra))
    have htmem := List.mem_filter.mp ht
    have htf : t ∈ strat.filter
        (fun t2 => t2.indexEncounterId == r.indexEncounterId) :=
      List.mem_filter.mpr ⟨htmem.1, by simp [htienc]⟩
    rw [hienc] at htf
    have htrec : t = r := List.mem_singleton.mp htf
    have hpid : t.patientId = pr.1.patientId := by
      have hb2 := htmem.2
      simp only [Bool.and_eq_true, beq_iff_eq] at hb2
      exact hb2.1
    have hprspan : pr.1 ∈ spans := by
      have hprm : pr ∈ DepRem.mergeMediciadWithStratify spans strat := by
        have hpr2 := hpr
        simp only [DepRem.filterInsuranceDates] at hpr2
        exact (List.mem_filter.mp hpr2).1
      simp only [DepRem.mergeMediciadWithStratify] at hprm
      rcases mem_cmap.mp hprm with ⟨sp, hs, hps⟩
      rcases List.mem_map.mp hps with ⟨r2, hr2, hr2p⟩
      have hpr1 : pr.1 = sp := by rw [← hr2p]
      rw [hpr1]
      exact hs
    exact hno pr.1 hprspan (by rw [← hpid, htrec])
  rw [hnone] at hb
  exact Option.noConfusion hb

set_option maxRecDepth 4000 in
/-- C4 counterexample: a DEP-REM stratify record whose patient has no
insurance spans at all (in particular none active at the relevant date) is
silently dropped by `__get_encounter_data`, because the results are merged
back with an inner merge; the stratify table becomes empty even though the
cohort record exists. -/
theorem c4_counterexample_dep_rem_uninsured_dropped :
    DepRem.getEncounterData depRemC3Strat [] (mkDay 2025 1 1) = []
      ∧ depRemC3Strat ≠ [] :=
  ⟨rfl, by decide⟩

/-- C4 (amended): CDF-CH keeps every stratify record (the output is the
stratify table itself on the first component): a record of a patient with
no insurance spans gets Medicaid `false` via the left merge and
`fillna(False)`; DEP-REM instead drops such a record entirely from the
stratify output because its results are joined with an inner merge. -/
theorem c4_amended_uninsured_stratify_behavior :
    (∀ (strat : List CdfCh.CStratRow) (spans : List InsuranceSpan) (now : Ts),
      (CdfCh.getEncounterData strat spans now).map Prod.fst = strat)
    ∧ (∀ (strat : List CdfCh.CStratRow) (spans : List InsuranceSpan) (now : Ts)
        (r : CdfCh.CStratRow), r ∈ strat → (∀ s ∈ spans, s.patientId ≠ r.pmy.1) →
        (r, false) ∈ CdfCh.getEncounterData strat spans now)
    ∧ (∀ (strat : List DepRem.StratP) (spans : List InsuranceSpan) (now : Ts)
        (rec : DepRem.StratP),
        strat.filter (fun t => t.indexEncounterId == rec.indexEncounterId) = [rec] →
        (∀ s ∈ spans, s.patientId ≠ rec.patientId) →
        rec ∉ (DepRem.getEncounterData strat spans now).map DepRem.StratM.toStratP) :=
  ⟨fun strat spans now => cdf_getEncounterData_map_fst strat spans now,
   fun _ _ _ _ hr hno => cdf_uninsured_kept_false hr hno,
   fun strat spans now rec hienc hno =>
     depRem_uninsured_dropped strat spans now rec hienc hno⟩

set_option maxRecDepth 4000 in
theorem c4_amended_uninsured_stratify_behavior_witness :
    (cdfC4Row, false) ∈ CdfCh.getEncounterData [cdfC4Row] [] (mkDay 2025 1 1)
      ∧ depRemC3Rec ∉ (DepRem.getEncounterData depRemC3Strat [] (mkDay 2025 1 1)).map
          DepRem.StratM.toStratP :=
  ⟨c4_amended_uninsured_stratify_behavior.2.1 [cdfC4Row] [] (mkDay 2025 1 1) cdfC4Row
      (by decide) (by decide),
   c4_amended_uninsured_stratify_behavior.2.2 depRemC3Strat [] (mkDay 2025 1 1)
      depRemC3Rec (by decide) (by decide)⟩

/-- C1 (amended): after the final trims, one row per
`patient_measurement_year_id` is guaranteed exactly where the source passes
`subset=patient_measurement_year_id` to `drop_duplicates`: the ASC cohort
and stratify trims, the CDF-CH cohort trim, the SDOH cohort and stratify
trims and the I-SERV stratify trim.  The I-SERV and DEP-REM cohort trims
call `drop_duplicates()` with no subset, which only removes fully identical
rows, so those two cohort tables are guaranteed pairwise-distinct rows but
not unique keys (and the I-SERV counterexample shows a genuine duplicate
key). -/
theorem c1_amended_final_key_uniqueness :
    (∀ xs : List Asc1.FinalRow,
      ((Asc1.trimUnnecessaryPopulaceData xs).map (fun r => r.pmy)).Nodup)
    ∧ (∀ xs : List Asc1.StratFinalRow,
      ((Asc1.trimUnnecessaryStratifyData xs).map (fun r => r.pmy)).Nodup)
    ∧ (∀ pop : List CdfCh.NumRow,
      ((CdfCh.trimUnnecessaryPopulaceData pop).map (fun r => r.pmy)).Nodup)
    ∧ (∀ xs : List Sdoh.FinalRow,
      ((Sdoh.trimUnnecessaryPopulaceData xs).map (fun r => r.pmy)).Nodup)
    ∧ (∀ xs : List Sdoh.StratFinalRow,
      ((Sdoh.trimUnnecessaryStratifyData xs).map (fun r => r.pmy)).Nodup)
    ∧ (∀ xs : List Iserv1.StratFinalRow,
      ((Iserv1.trimUnnecessaryStratifyData xs).map (fun r => r.pmy)).Nodup)
    ∧ (∀ pop : List Iserv1.NumRow, (Iserv1.trimUnnecessaryPopulaceData pop).Nodup)
    ∧ (∀ pop : List DepRem.NVisit, (DepRem.trimUnnecessaryPopulaceData pop).Nodup) :=
  ⟨fun xs => dedupKeepFirstBy_keys_nodup _ xs,
   fun xs => dedupKeepFirstBy_keys_nodup _ xs,
   fun _ => dedupKeepFirstBy_keys_nodup _ _,
   fun xs => dedupKeepFirstBy_keys_nodup _ xs,
   fun xs => dedupKeepFirstBy_keys_nodup _ xs,
   fun xs => dedupKeepFirstBy_keys_nodup _ xs,
   fun _ => dedupKeepFirstBy_id_nodup _,
   fun _ => dedupKeepFirstBy_id_nodup _⟩
